import Mathlib

/-!
A shallow embedding of the trigger-bot Retrigger Decision Engine
(`triggerbot/tree_watcher.py`, class `TreeWatcher`) in Lean 4, together with
theorems settling the specification claims about it.

Modelling conventions:
* Python `dict`-valued revision entries (whose fields are added dynamically)
  become a structure of `Option` fields; a field that was never assigned is
  `none`, and reading an absent field raises `PyErr.keyError`, mirroring
  Python's `KeyError`.  `self.revmap` is a `defaultdict(dict)`, so *reading*
  `self.revmap[rev]` for an unknown `rev` inserts a fresh empty entry.
* Methods that can raise return `TreeWatcher × Except PyErr α` (the state
  reached at the point of the raise together with the outcome), since Python
  mutations performed before an exception persist.
* External HTTP collaborators (`_get_ids_for_rev`'s buildapi query, the
  treeherder job listings) are oracles passed as function arguments; `none`
  from the lookup oracle models the `ValueError` (unparseable JSON) branch.
* The actual outbound effects (`_rebuild` POSTs, allow-list-suppressed
  "accounted" attempts, `Timer`-scheduled retries) are recorded in a ghost
  `trigger_log` field; the Python code performs these effects instead of
  logging them, and the log does not influence any control flow.
* `time.time()` is modelled by a strictly increasing `clock` counter stamped
  by `add_rev` (the only caller); only its ordering is ever used (pruning).
* `re.match('[a-z0-9]{12}', s)` anchors at the start only, so it is modelled
  as: the first 12 characters of `s` exist and are lowercase-alphanumeric.
* All string processing is implemented over `List Char` so that concrete
  runs evaluate inside the kernel.
-/

namespace TriggerBot

/-- Python exceptions that the embedded code can raise. -/
inductive PyErr where
  | typeError
  | keyError (field : String)
  | indexError
  | argError
deriving Repr, DecidableEq

/-! ## Character/string helpers (models of the Python string operations used) -/

/-- Whitespace as recognised by Python's `str.strip` / `\S` (ASCII fragment). -/
def isPySpace (c : Char) : Bool :=
  c = ' ' ∨ c = '\t' ∨ c = '\n' ∨ c = '\r' ∨ c = '\x0b' ∨ c = '\x0c'

/-- `[a-z0-9]` character class of the revision regular expression. -/
def isLowerAlnum (c : Char) : Bool :=
  ('a' ≤ c ∧ c ≤ 'z') ∨ ('0' ≤ c ∧ c ≤ '9')

/-- Model of `re.match('[a-z0-9]{12}', s)`: `re.match` anchors only at the
start of the string, so it succeeds iff `s` has at least 12 characters and
its first 12 characters are lowercase alphanumerics. -/
def matchesRevPattern (s : String) : Bool :=
  (s.data.take 12).length = 12 ∧ (s.data.take 12).all isLowerAlnum

/-- Does the character list `l` contain `pat` as a contiguous sublist?
Models Python's `pat in l` substring test. -/
def containsSub (l pat : List Char) : Bool :=
  ((List.range (l.length + 1)).any fun i => pat.isPrefixOf (l.drop i))

/-- Split at the first occurrence of `pat` (nonempty): returns the parts
before and after it.  Models `l.split(pat, 1)` when it finds an occurrence. -/
def splitFirst (l pat : List Char) : Option (List Char × List Char) :=
  match (List.range (l.length + 1)).find? (fun i => pat.isPrefixOf (l.drop i)) with
  | none => none
  | some i => some (l.take i, (l.drop i).drop pat.length)

/-- Python `str.splitlines` restricted to `'\n'` separators. -/
def splitLinesAux : List Char → List Char → List (List Char)
  | [], cur => [cur.reverse]
  | c :: cs, cur =>
    if c = '\n' then cur.reverse :: splitLinesAux cs []
    else splitLinesAux cs (c :: cur)

/-- The lines of `s` (an empty string yields no lines, as in Python). -/
def splitLines (s : String) : List (List Char) :=
  if s.data = [] then [] else splitLinesAux s.data []

/-- Python `str.strip()`. -/
def pyStrip (l : List Char) : List Char :=
  (((l.dropWhile isPySpace).reverse).dropWhile isPySpace).reverse

/-- Python `str.endswith(suffix)`. -/
def pyEndsWith (l suffix : List Char) : Bool :=
  suffix.reverse.isPrefixOf l.reverse

/-- Python `int(tok)` on an option argument: optional sign then digits.
Returns `none` where `int()` would raise (argparse then errors out). -/
def pyParseInt (l : List Char) : Option Int :=
  let core : List Char → Option Int := fun ds =>
    if ds = [] ∨ ¬ ds.all (·.isDigit) then none
    else some (Int.ofNat (ds.foldl (fun a c => a * 10 + (c.toNat - '0'.toNat)) 0))
  match l with
  | '-' :: ds => (core ds).map (fun n => -n)
  | '+' :: ds => core ds
  | ds => core ds

/-! ## The try-syntax tokenizer

Models `re.findall(r'(?:\[.*?\]|\S)+', s)`: maximal runs built from
bracketed groups `[...]` (lazily closed at the first `]`, spaces allowed
inside) or single non-space characters. -/

/-- Split off a bracket group's body: everything up to and including the
first `]`, together with the remaining characters. -/
def takeBracket : List Char → List Char × List Char
  | [] => ([], [])
  | c :: cs =>
    if c = ']' then ([c], cs)
    else
      let (a, b) := takeBracket cs
      (c :: a, b)

/-- Tokenizer loop: `cur` holds the current token, reversed.  A space ends
the current token; a `[` with a matching `]` ahead swallows the whole
bracket group (spaces included) into the current token; any other character
extends the current token.  The `fuel` argument makes the recursion
structural (so it reduces inside the kernel); every step consumes at least
one input character, so `input length + 1` fuel always suffices and the
out-of-fuel base case is unreachable from `tokenize`. -/
def tokenizeLoop : Nat → List Char → List Char → List (List Char)
  | 0, _, _ => []
  | _ + 1, [], cur => if cur = [] then [] else [cur.reverse]
  | fuel + 1, c :: rest, cur =>
    if isPySpace c then
      if cur = [] then tokenizeLoop fuel rest []
      else cur.reverse :: tokenizeLoop fuel rest []
    else if c = '[' ∧ containsSub rest [']'] then
      let br := takeBracket rest
      tokenizeLoop fuel br.2 (br.1.reverse ++ c :: cur)
    else tokenizeLoop fuel rest (c :: cur)

def tokenize (s : List Char) : List (List Char) := tokenizeLoop (s.length + 1) s []

/-! ## Class constants of `TreeWatcher` -/

def default_retry : Int := 1
def per_push_failures : Int := 4
def failure_tolerance_factor : Int := 33
/-- Class attribute `revmap_threshold`; `__init__` copies it into the
instance, and the repository's tests reassign it before construction. -/
def revmap_threshold_default : Nat := 2000
def requested_limit : Int := 5

/-! ## `triggers_from_msg` -/

/-- The argparse namespace for the three registered options, with their
declared defaults. -/
structure TryArgs where
  rebuild : Int := 0
  rebuild_talos : Int := 0
  retry : Bool := true
deriving Repr, DecidableEq

/-- Model of `argparse.ArgumentParser.parse_known_args` restricted to the
three options registered by `triggers_from_msg` (`--rebuild <int>`,
`--rebuild-talos <int>`, `--no-retry`), each given by its full flag with a
separate value token.  Unrecognized tokens are ignored; a later occurrence
of an option overrides an earlier one; a missing or non-integer value makes
argparse error out (modelled as `PyErr.argError`). -/
def parseKnownArgs (a : TryArgs) : List (List Char) → Except PyErr TryArgs
  | [] => .ok a
  | t :: ts =>
    if t = "--rebuild".data then
      match ts with
      | v :: ts' =>
        match pyParseInt v with
        | some n => parseKnownArgs { a with rebuild := n } ts'
        | none => .error .argError
      | [] => .error .argError
    else if t = "--rebuild-talos".data then
      match ts with
      | v :: ts' =>
        match pyParseInt v with
        | some n => parseKnownArgs { a with rebuild_talos := n } ts'
        | none => .error .argError
      | [] => .error .argError
    else if t = "--no-retry".data then
      parseKnownArgs { a with retry := false } ts
    else parseKnownArgs a ts

/-- The value returned by `triggers_from_msg`: Python returns the bare
integer `0` when no `try: ` line is found, and a `(rebuilds, rebuild_talos,
retry)` triple otherwise. -/
inductive TryMsgResult where
  | bare0
  | counts (rebuilds rebuild_talos : Int) (retry : Bool)
deriving Repr, DecidableEq

/-- Strip one leading and trailing `"` when the line both starts and ends
with a quote (autoland quoting). -/
def dequote (l : List Char) : List Char :=
  if l.headI = '"' ∧ l.getLastI = '"' ∧ l ≠ [] then (l.drop 1).dropLast else l

/-- `TreeWatcher.triggers_from_msg`: find the first line containing
`'try: '`, dequote and strip it, split at the first `'try: '` of the
stripped line, tokenize the remainder and parse the recognized options,
clamping each requested count to `requested_limit`.  With no such line the
Python code returns the bare integer `0` (`TryMsgResult.bare0`). -/
def triggers_from_msg (msg : String) : Except PyErr TryMsgResult :=
  match (splitLines msg).find? (fun l => containsSub l "try: ".data) with
  | none => .ok .bare0
  | some line =>
    let line := dequote line
    match splitFirst (pyStrip line) "try: ".data with
    | none => .error .indexError
    | some (_, afterTry) =>
      match parseKnownArgs {} (tokenize afterTry) with
      | .error e => .error e
      | .ok args =>
        let rebuilds := if args.rebuild < requested_limit then args.rebuild else requested_limit
        let rebuild_talos :=
          if args.rebuild_talos < requested_limit then args.rebuild_talos else requested_limit
        .ok (.counts rebuilds rebuild_talos args.retry)

/-! ## Data model: revision entries and the watcher state -/

/-- A revision's registry entry (`self.revmap[rev]`, a Python dict whose
fields are assigned dynamically): an unassigned field is `none`. -/
structure RevEntry where
  requested_trigger : Option (Int × Int) := none
  fail_retrigger : Option Int := none
  rev_trigger_count : Option Int := none
  time_seen : Option Nat := none
  seen_builders : Option (List String) := none
  user : Option String := none
deriving Repr, DecidableEq

/-- Ghost record of an outbound effect performed by `attempt_triggers`:
an actual `_rebuild` POST, an allow-list-suppressed but accounted attempt,
or a `Timer`-scheduled retry of the same decision. -/
inductive TriggerAction where
  | rebuild (branch rev builder : String) (count : Int)
      (build_id request_id : Option Int)
  | accounted (branch rev builder : String) (count : Int)
  | scheduled (branch rev builder : String) (count : Int) (seen : Int) (attempt : Nat)
  | registered (rev : String)
deriving Repr, DecidableEq

def TriggerAction.rev : TriggerAction → String
  | .rebuild _ r _ _ _ _ => r
  | .accounted _ r _ _ => r
  | .scheduled _ r _ _ _ _ => r
  | .registered r => r

def TriggerAction.builder : TriggerAction → String
  | .rebuild _ _ b _ _ _ => b
  | .accounted _ _ b _ => b
  | .scheduled _ _ b _ _ _ => b
  | .registered _ => ""

def TriggerAction.branch : TriggerAction → String
  | .rebuild b _ _ _ _ _ => b
  | .accounted b _ _ _ => b
  | .scheduled b _ _ _ _ _ => b
  | .registered _ => ""

/-- Is this the ghost registration marker (not an outbound trigger effect)? -/
def TriggerAction.isReg : TriggerAction → Bool
  | .registered _ => true
  | _ => false

/-- Number of trigger actions (rebuild POSTs, allow-list-accounted attempts,
scheduled retries — not registration markers) recorded for a revision and
builder. -/
def countRB (log : List TriggerAction) (r bl : String) : Nat :=
  log.countP (fun a => !a.isReg && a.rev == r && a.builder == bl)

/-- Number of trigger actions recorded for a full (branch, revision,
builder) triple. -/
def countTriple (log : List TriggerAction) (b r bl : String) : Nat :=
  log.countP (fun a => !a.isReg && a.branch == b && a.rev == r && a.builder == bl)

/-- Number of times a revision was registered (`add_rev` completed). -/
def countReg (log : List TriggerAction) (r : String) : Nat :=
  log.countP (fun a => a == .registered r)

/-- The association-list model of the `revmap` dict (unique keys,
insertion order preserved, updates in place). -/
abbrev Revmap := List (String × RevEntry)

def Revmap.find? (m : Revmap) (r : String) : Option RevEntry :=
  (List.find? (fun p => p.1 = r) m).map Prod.snd

def Revmap.set (m : Revmap) (r : String) (e : RevEntry) : Revmap :=
  if (List.find? (fun p => p.1 = r) m).isSome then
    m.map (fun p => if p.1 = r then (r, e) else p)
  else m ++ [(r, e)]

/-- The `TreeWatcher` instance state.  `clock` models `time.time()` (only
its strict monotonicity across `add_rev` calls is relied upon);
`trigger_log` is the ghost effect log. -/
structure TreeWatcher where
  revmap : Revmap
  revmap_threshold : Nat
  lower_trigger_limit : Int
  is_triggerbot_user : String → Bool
  global_trigger_count : Int
  hidden_builders : List String
  refresh_builder_counter : Nat
  clock : Nat
  trigger_log : List TriggerAction

/-- `TreeWatcher.__init__`: `threshold` is the value of the class attribute
`revmap_threshold` at construction time (2000 by default; the repository's
tests assign 9 before constructing). -/
def TreeWatcher.init (threshold : Nat) (is_triggerbot_user : String → Bool) : TreeWatcher :=
  { revmap := []
    revmap_threshold := threshold
    lower_trigger_limit := default_retry * per_push_failures
    is_triggerbot_user := is_triggerbot_user
    global_trigger_count := 0
    hidden_builders := []
    refresh_builder_counter := 0
    clock := 0
    trigger_log := [] }

/-- `TreeWatcher.known_rev` — the `branch` parameter is unused. -/
def known_rev (tw : TreeWatcher) (_branch rev : String) : Bool :=
  (tw.revmap.find? rev).isSome

/-- Sort key for `_prune_revmap`: `v['time_seen']`.  Every entry present
when pruning runs was written by `add_rev` and therefore carries
`time_seen`; the `getD 0` default is unreachable there (Python would raise
`KeyError` instead). -/
def timeOf (p : String × RevEntry) : Nat := p.2.time_seen.getD 0

def entryLE (p q : String × RevEntry) : Prop := timeOf p ≤ timeOf q

instance : DecidableRel entryLE := fun p q => by
  unfold entryLE; infer_instance

instance : IsTotal (String × RevEntry) entryLE :=
  ⟨fun p q => Nat.le_total (timeOf p) (timeOf q)⟩

instance : IsTrans (String × RevEntry) entryLE :=
  ⟨fun _ _ _ h h' => Nat.le_trans h h'⟩

/-- `TreeWatcher._prune_revmap`: sort the entries by `time_seen` ascending
(Python's stable `sorted`) and delete the first `len - target` of them,
where `target = int(TreeWatcher.revmap_threshold * 2/3)` — under Python 2
integer division this is `threshold * 2 / 3` rounded down. -/
def prune_revmap (tw : TreeWatcher) : TreeWatcher :=
  let target : Nat := tw.revmap_threshold * 2 / 3
  let prune_count : Nat := tw.revmap.length - target
  let victims : List String :=
    (((tw.revmap.insertionSort entryLE).take prune_count).map Prod.fst)
  { tw with revmap := tw.revmap.filter (fun p => ¬ p.1 ∈ victims) }

/-- `TreeWatcher.add_rev`.  The first statement unpacks the result of
`triggers_from_msg` into three names; when that result is the bare integer
`0` Python raises `TypeError` before any mutation.  Otherwise the entry's
fields are assigned in source order and the revmap is pruned when its size
exceeds the threshold.  `time.time()` is modelled by stamping the current
`clock` and incrementing it. -/
def add_rev (tw : TreeWatcher) (_branch rev : String) (comments user : String) :
    Except PyErr TreeWatcher :=
  match triggers_from_msg comments with
  | .error e => .error e
  | .ok .bare0 => .error .typeError
  | .ok (.counts req_count req_talos_count should_retry) =>
    let e0 := (tw.revmap.find? rev).getD {}
    let e1 :=
      if req_count ≠ 0 ∨ req_talos_count ≠ 0 then
        { e0 with requested_trigger := some (req_count, req_talos_count) }
      else e0
    let e2 :=
      if should_retry ∧ req_count = 0 then
        { e1 with fail_retrigger := some default_retry }
      else e1
    let e3 := { e2 with
      rev_trigger_count := some 0
      time_seen := some tw.clock
      seen_builders := some []
      user := some user }
    let tw1 := { tw with
      revmap := tw.revmap.set rev e3
      clock := tw.clock + 1
      trigger_log := tw.trigger_log ++ [.registered rev] }
    .ok (if tw1.revmap.length > tw1.revmap_threshold then prune_revmap tw1 else tw1)

/-! ## Decision engine: `attempt_triggers` and the two trigger paths -/

/-- One record of the buildapi response consumed by `_get_ids_for_rev`;
an absent key of the JSON object is `none`. -/
structure LookupRes where
  buildername : String
  build_id : Option Int := none
  request_id : Option Int := none
deriving Repr, DecidableEq

/-- The buildapi lookup collaborator: `none` models a response whose JSON
parsing raises `ValueError`. -/
abbrev Lookup := String → String → Option (List LookupRes)

/-- Python truthiness of `found_buildid` / `found_requestid`
(`None` and `0` are falsy). -/
def truthyOptInt : Option Int → Bool
  | none => false
  | some n => n ≠ 0

/-- `TreeWatcher._get_ids_for_rev`: fold over the response records counting
the total (`rev_total`) and the records of the target builder
(`builder_total`), capturing the first truthy `build_id` and `request_id`
seen for that builder.  Returns `none` on the `ValueError` branch. -/
def get_ids_for_rev (lookup : Lookup) (branch rev builder : String) :
    Option (Option Int × Option Int × Int × Int) :=
  match lookup branch rev with
  | none => none
  | some results =>
    some (results.foldl
      (fun acc res =>
        let (fb, fr, bt, rt) := acc
        let rt := rt + 1
        if res.buildername = builder then
          let fb := if res.build_id.isSome ∧ ¬ truthyOptInt fb then res.build_id else fb
          let fr := if res.request_id.isSome ∧ ¬ truthyOptInt fr then res.request_id else fr
          (fb, fr, bt + 1, rt)
        else (fb, fr, bt, rt))
      (none, none, 0, 0))

/-- `TreeWatcher.attempt_triggers`.  Returns the state reached together
with the Python return value (`none` for a bare `return`), or the raised
exception.  Notable modelled behaviours:
* the revision-pattern check is `re.match` (prefix, not full match);
* `self.global_trigger_count += count` happens before the allow-list check;
* `self.revmap[rev]` is a `defaultdict`, so when `rev` has been evicted the
  access on the allow-list line inserts a fresh empty entry and then raises
  `KeyError('user')`;
* when neither id is truthy and `attempt > 4` it gives up, otherwise it
  schedules a `Timer` retry (ghost-logged) and returns `count`. -/
def attempt_triggers (lookup : Lookup) (tw : TreeWatcher)
    (branch rev builder : String) (count : Int) (seen : Int := 0) (attempt : Nat := 0) :
    TreeWatcher × Except PyErr (Option Int) :=
  if ¬ matchesRevPattern rev then (tw, .ok none)
  else
    match get_ids_for_rev lookup branch rev builder with
    | none => (tw, .ok none)
    | some (found_buildid, found_requestid, builder_total, rev_total) =>
      if builder_total > count then (tw, .ok none)
      else if seen * failure_tolerance_factor > rev_total ∧
          seen > tw.lower_trigger_limit then (tw, .ok none)
      else
        let tw := { tw with global_trigger_count := tw.global_trigger_count + count }
        match tw.revmap.find? rev with
        | none =>
          ({ tw with revmap := tw.revmap.set rev {} }, .error (.keyError "user"))
        | some entry =>
          match entry.user with
          | none => (tw, .error (.keyError "user"))
          | some u =>
            if ¬ tw.is_triggerbot_user u then
              ({ tw with trigger_log :=
                  tw.trigger_log ++ [.accounted branch rev builder count] },
               .ok (some count))
            else if truthyOptInt found_buildid then
              ({ tw with trigger_log :=
                  tw.trigger_log ++ [.rebuild branch rev builder count found_buildid none] },
               .ok (some count))
            else if truthyOptInt found_requestid then
              ({ tw with trigger_log :=
                  tw.trigger_log ++ [.rebuild branch rev builder count none found_requestid] },
               .ok (some count))
            else if attempt > 4 then (tw, .ok none)
            else
              ({ tw with trigger_log :=
                  tw.trigger_log ++ [.scheduled branch rev builder count seen (attempt + 1)] },
               .ok (some count))

/-- `TreeWatcher.failure_trigger`.  Reads of absent entry fields raise
`KeyError`; `builder` is added to `seen_builders` before the attempt; the
attempt's (truthy) return value is added to `rev_trigger_count`. -/
def failure_trigger (lookup : Lookup) (tw : TreeWatcher)
    (branch rev builder : String) : TreeWatcher × Except PyErr Unit :=
  match tw.revmap.find? rev with
  | none => (tw, .ok ())
  | some entry =>
    if entry.fail_retrigger = none then (tw, .ok ())
    else
      match entry.seen_builders with
      | none => (tw, .error (.keyError "seen_builders"))
      | some seen_builders =>
        if builder ∈ seen_builders then (tw, .ok ())
        else if builder ∈ tw.hidden_builders then (tw, .ok ())
        else
          let entry := { entry with seen_builders := some (seen_builders ++ [builder]) }
          let tw := { tw with revmap := tw.revmap.set rev entry }
          match entry.fail_retrigger with
          | none => (tw, .error (.keyError "fail_retrigger"))
          | some count =>
            match entry.rev_trigger_count with
            | none => (tw, .error (.keyError "rev_trigger_count"))
            | some seen =>
              let (tw', res) := attempt_triggers lookup tw branch rev builder count seen 0
              match res with
              | .error e => (tw', .error e)
              | .ok none => (tw', .ok ())
              | .ok (some triggered) =>
                if triggered ≠ 0 then
                  match tw'.revmap.find? rev with
                  | none => (tw', .error (.keyError rev))
                  | some entry' =>
                    match entry'.rev_trigger_count with
                    | none => (tw', .error (.keyError "rev_trigger_count"))
                    | some n =>
                      let entry'' := { entry' with rev_trigger_count := some (n + triggered) }
                      ({ tw' with revmap := tw'.revmap.set rev entry'' }, .ok ())
                else (tw', .ok ())

/-- `TreeWatcher.requested_trigger`.  Fires at most once per builder; the
talos count replaces the normal count when it is truthy and the builder
name contains `'talos'`; the attempt's return value is discarded. -/
def requested_trigger (lookup : Lookup) (tw : TreeWatcher)
    (branch rev builder : String) : TreeWatcher × Except PyErr Unit :=
  match tw.revmap.find? rev with
  | none => (tw, .ok ())
  | some entry =>
    match entry.requested_trigger with
    | none => (tw, .ok ())
    | some (count, talos_count) =>
      match entry.seen_builders with
      | none => (tw, .error (.keyError "seen_builders"))
      | some seen_builders =>
        if builder ∈ seen_builders then (tw, .ok ())
        else
          let entry := { entry with seen_builders := some (seen_builders ++ [builder]) }
          let tw := { tw with revmap := tw.revmap.set rev entry }
          let count := if talos_count ≠ 0 ∧ containsSub builder.data "talos".data
                       then talos_count else count
          let (tw', res) := attempt_triggers lookup tw branch rev builder count
          match res with
          | .error e => (tw', .error e)
          | .ok _ => (tw', .ok ())

/-! ## `handle_message` and the event loop -/

/-- The treeherder job-listing collaborator behind `_get_jobs`:
`jobs branch rev hidden` is the list of `ref_data_name`s returned for the
result set (with `visibility=excluded` when `hidden` is true). -/
abbrev JobsOracle := String → String → Bool → List String

/-- `TreeWatcher._get_jobs`: keep only names *not* matching the 12-char
lowercase-alphanumeric prefix pattern. -/
def get_jobs (jobs : JobsOracle) (branch rev : String) (hidden : Bool) : List String :=
  (jobs branch rev hidden).filter (fun n => ¬ matchesRevPattern n)

/-- `TreeWatcher.update_hidden_builders`:
`self.hidden_builders -= visible; self.hidden_builders |= hidden`. -/
def update_hidden_builders (jobs : JobsOracle) (tw : TreeWatcher)
    (branch rev : String) : TreeWatcher :=
  let hidden := get_jobs jobs branch rev true
  let visible := get_jobs jobs branch rev false
  let hb := tw.hidden_builders.filter (fun b => ¬ b ∈ visible)
  { tw with hidden_builders := hb ++ hidden.filter (fun b => ¬ b ∈ hb) }

/-- `TreeWatcher.handle_message`: register unknown revisions carrying
non-empty comments, run the requested path on `*started` keys, run the
failure path when `status in (1, 2)`, and periodically refresh the hidden
builders.  A raised exception aborts the remaining steps of the event (the
pulse consumer catches it and carries on with the *next* event). -/
def handle_message (lookup : Lookup) (jobs : JobsOracle) (tw : TreeWatcher)
    (key branch rev builder : String) (status : Option Int) (comments user : String) :
    TreeWatcher × Except PyErr Unit :=
  let s1 : TreeWatcher × Except PyErr Unit :=
    if ¬ known_rev tw branch rev ∧ comments ≠ "" then
      match add_rev tw branch rev comments user with
      | .ok tw' => (tw', .ok ())
      | .error e => (tw, .error e)
    else (tw, .ok ())
  match s1 with
  | (tw1, .error e) => (tw1, .error e)
  | (tw1, .ok ()) =>
    let s2 : TreeWatcher × Except PyErr Unit :=
      if pyEndsWith key.data "started".data then
        requested_trigger lookup tw1 branch rev builder
      else (tw1, .ok ())
    match s2 with
    | (tw2, .error e) => (tw2, .error e)
    | (tw2, .ok ()) =>
      let s3 : TreeWatcher × Except PyErr Unit :=
        if status = some 1 ∨ status = some 2 then
          failure_trigger lookup tw2 branch rev builder
        else (tw2, .ok ())
      match s3 with
      | (tw3, .error e) => (tw3, .error e)
      | (tw3, .ok ()) =>
        if tw3.refresh_builder_counter = 0 then
          ({ update_hidden_builders jobs tw3 branch rev with
              refresh_builder_counter := 300 }, .ok ())
        else
          ({ tw3 with refresh_builder_counter := tw3.refresh_builder_counter - 1 }, .ok ())

/-- One inbound pulse event, as unpacked for `handle_message`. -/
structure Event where
  key : String
  branch : String
  rev : String
  builder : String
  status : Option Int
  comments : String
  user : String
deriving Repr, DecidableEq

/-- The pulse consumer loop: deliver each event in order; an exception
raised while handling one event is caught and logged, and processing
continues with the next event. -/
def run_events (lookup : Lookup) (jobs : JobsOracle) (tw : TreeWatcher) :
    List Event → TreeWatcher
  | [] => tw
  | e :: es =>
    let (tw', _) := handle_message lookup jobs tw e.key e.branch e.rev e.builder
      e.status e.comments e.user
    run_events lookup jobs tw' es

/-! ## Invariant definitions and concrete scenario data -/

/-- The revmap has pairwise distinct keys (Python dicts cannot have
duplicate keys; every reachable state satisfies this). -/
def keysNodup (m : Revmap) : Prop := (m.map Prod.fst).Nodup

/-- Trigger budget left for `(rev, builder)` in the current registry state:
1 while the revision has an entry whose `seen_builders` does not yet
contain the builder, 0 otherwise. -/
def slack (tw : TreeWatcher) (r bl : String) : Nat :=
  match tw.revmap.find? r with
  | none => 0
  | some e =>
    match e.seen_builders with
    | none => 0
    | some sb => if bl ∈ sb then 0 else 1

/-- The deduplication invariant: per (revision, builder), the number of
trigger actions recorded plus the remaining budget never exceeds the number
of registrations of that revision. -/
def DedupInv (tw : TreeWatcher) : Prop :=
  keysNodup tw.revmap ∧
  ∀ r bl, countRB tw.trigger_log r bl + slack tw r bl ≤ countReg tw.trigger_log r

/-- Invariant for runs whose events all target one (revision, builder)
pair: at most one trigger action total, and once one was issued the
builder sits in the entry's `seen_builders`. -/
def consBound (tw : TreeWatcher) (r bl : String) : Prop :=
  match tw.revmap.find? r with
  | none => countRB tw.trigger_log r bl = 0
  | some e =>
    match e.seen_builders with
    | none => countRB tw.trigger_log r bl = 0
    | some sb =>
      if bl ∈ sb then countRB tw.trigger_log r bl ≤ 1
      else countRB tw.trigger_log r bl = 0

/-- `handle_message` with the failure step deleted (steps 1, 2 and 4 of the
source only) — the comparison point for the claim that the failure path
runs exactly on the two failure status codes. -/
def handle_message_no_failure (lookup : Lookup) (jobs : JobsOracle) (tw : TreeWatcher)
    (key branch rev builder : String) (comments user : String) :
    TreeWatcher × Except PyErr Unit :=
  let s1 : TreeWatcher × Except PyErr Unit :=
    if ¬ known_rev tw branch rev ∧ comments ≠ "" then
      match add_rev tw branch rev comments user with
      | .ok tw' => (tw', .ok ())
      | .error e => (tw, .error e)
    else (tw, .ok ())
  match s1 with
  | (tw1, .error e) => (tw1, .error e)
  | (tw1, .ok ()) =>
    let s2 : TreeWatcher × Except PyErr Unit :=
      if pyEndsWith key.data "started".data then
        requested_trigger lookup tw1 branch rev builder
      else (tw1, .ok ())
    match s2 with
    | (tw2, .error e) => (tw2, .error e)
    | (tw2, .ok ()) =>
      if tw2.refresh_builder_counter = 0 then
        ({ update_hidden_builders jobs tw2 branch rev with
            refresh_builder_counter := 300 }, .ok ())
      else
        ({ tw2 with refresh_builder_counter := tw2.refresh_builder_counter - 1 }, .ok ())

/-- Allow-list accepting every user (the `__init__` default). -/
def allowAll : String → Bool := fun _ => true

/-- Job-listing oracle returning no jobs (hidden-builder refresh no-ops). -/
def noJobs : JobsOracle := fun _ _ _ => []

/-- Lookup oracle: one buildapi record for builder `b1` with a build id. -/
def lkpB1 : Lookup := fun _ _ => some [⟨"b1", some 7, none⟩]

/-- Lookup oracle: one record for an unrelated builder (no id for the
target builder, so `attempt_triggers` reaches its later branches). -/
def lkpOther : Lookup := fun _ _ => some [⟨"zzz", some 3, none⟩]

/-- A registry entry as `add_rev` produces it for plain `try: x` comments:
default failure-retry policy, nothing seen yet. -/
def freshRetryEntry (t : Nat) : RevEntry :=
  { fail_retrigger := some default_retry
    rev_trigger_count := some 0
    time_seen := some t
    seen_builders := some []
    user := some "u" }

/-- A watcher holding one registered revision `rev` with the default
failure-retry policy (for exercising `attempt_triggers` on arbitrary
revision strings). -/
def c9State (rev : String) : TreeWatcher :=
  { TreeWatcher.init 2000 allowAll with revmap := [(rev, freshRetryEntry 0)] }

/-- A watcher that already registered `abcdef123456` with the default
failure-retry policy (as the repository's test `failure_sequence` drives
it) and whose refresh countdown is mid-cycle. -/
def demoState : TreeWatcher :=
  { TreeWatcher.init 2000 allowAll with
      revmap := [("abcdef123456", freshRetryEntry 0)]
      refresh_builder_counter := 5 }

/-- A watcher at capacity: threshold 3 with three registered revisions of
strictly increasing `time_seen`. -/
def c5State : TreeWatcher :=
  { TreeWatcher.init 3 allowAll with
      revmap := [("r1", freshRetryEntry 0), ("r2", freshRetryEntry 1),
                 ("r3", freshRetryEntry 2)]
      clock := 3 }

/-- A failure event for revision `abcdef123456`, builder `b1`, carrying
plain try comments. -/
def failEvent : Event :=
  ⟨"x.finished", "try", "abcdef123456", "b1", some 1, "try: x", "u"⟩

/-- Filler events registering distinct throwaway revisions. -/
def fillerEvent (i : Nat) : Event :=
  ⟨"s", "try", "r" ++ toString i, "bX", none, "try: x", "u"⟩

/-- The eviction scenario: a failure for `abcdef123456` (one trigger), nine
filler registrations pushing the registry over the test-configured
threshold 9 (evicting the four oldest revisions, `abcdef123456` among
them), then the same failure again (a second trigger). -/
def evictionEvents : List Event :=
  failEvent :: ((List.range 9).map (fun i => fillerEvent (i + 2))) ++ [failEvent]

/-! ## Registry lemmas -/

theorem revFind_nil (r : String) : Revmap.find? [] r = none := rfl

theorem revFind_cons (q : String × RevEntry) (m : Revmap) (r : String) :
    Revmap.find? (q :: m) r = if q.1 = r then some q.2 else Revmap.find? m r := by
  unfold Revmap.find?
  by_cases hq : q.1 = r
  · rw [List.find?_cons_of_pos _ (by simpa using hq)]
    simp [hq]
  · rw [List.find?_cons_of_neg _ (by simpa using hq)]
    simp [hq]

theorem revFind_isNone (m : Revmap) (r : String)
    (h : ¬ (List.find? (fun p => (p.1 = r : Bool)) m).isSome = true) :
    List.find? (fun p => (p.1 = r : Bool)) m = none := by
  cases hf : List.find? (fun p => (p.1 = r : Bool)) m with
  | none => rfl
  | some v => exact absurd (by simp [hf]) h

theorem find?_set_self (m : Revmap) (r : String) (e : RevEntry) :
    (m.set r e).find? r = some e := by
  unfold Revmap.set
  split
  · rename_i hs
    have aux : ∀ m : Revmap, (List.find? (fun p => (p.1 = r : Bool)) m).isSome →
        Revmap.find? (m.map fun p => if p.1 = r then (r, e) else p) r = some e := by
      intro m
      induction m with
      | nil => intro hs; simp at hs
      | cons q m ih =>
        intro hs
        by_cases hq : q.1 = r
        · simp only [List.map_cons, if_pos hq]
          rw [revFind_cons]
          simp
        · simp only [List.map_cons, if_neg hq]
          rw [revFind_cons]
          simp only [if_neg hq]
          apply ih
          rw [List.find?_cons_of_neg _ (by simpa using hq)] at hs
          exact hs
    exact aux m hs
  · rename_i hs
    unfold Revmap.find?
    rw [List.find?_append, revFind_isNone m r hs]
    simp

theorem find?_set_ne (m : Revmap) (r r' : String) (e : RevEntry) (h : r' ≠ r) :
    (m.set r e).find? r' = m.find? r' := by
  unfold Revmap.set
  split
  · have aux : ∀ m : Revmap,
        Revmap.find? (m.map fun p => if p.1 = r then (r, e) else p) r' =
        Revmap.find? m r' := by
      intro m
      induction m with
      | nil => rfl
      | cons q m ih =>
        by_cases hq : q.1 = r
        · simp only [List.map_cons, if_pos hq]
          rw [revFind_cons, revFind_cons]
          have h1 : ¬ (r = r') := fun hh => h hh.symm
          have h2 : ¬ (q.1 = r') := fun hh => h (hh ▸ hq.symm ▸ rfl)
          simp only [if_neg h1, if_neg h2]
          exact ih
        · simp only [List.map_cons, if_neg hq]
          rw [revFind_cons, revFind_cons]
          by_cases hq' : q.1 = r'
          · simp [hq']
          · simp only [if_neg hq']
            exact ih
    exact aux m
  · unfold Revmap.find?
    rw [List.find?_append]
    have : List.find? (fun p => (p.1 = r' : Bool)) [(r, e)] = none := by
      simp [Ne.symm h]
    rw [this]
    simp

theorem keysNodup_set (m : Revmap) (r : String) (e : RevEntry) (h : keysNodup m) :
    keysNodup (m.set r e) := by
  unfold Revmap.set
  split
  · unfold keysNodup
    have hkeys : ((m.map fun p => if p.1 = r then (r, e) else p).map Prod.fst)
        = m.map Prod.fst := by
      rw [List.map_map]
      apply List.map_congr_left
      intro p _
      by_cases hp : p.1 = r
      · simp [hp]
      · simp [hp]
    rw [hkeys]
    exact h
  · rename_i hs
    unfold keysNodup
    rw [List.map_append, List.nodup_append]
    refine ⟨h, by simp, ?_⟩
    intro a ha hb
    simp only [List.map_cons, List.map_nil, List.mem_singleton] at hb
    subst hb
    have hnone := revFind_isNone m a hs
    rw [List.find?_eq_none] at hnone
    obtain ⟨p, hp, hfst⟩ := List.mem_map.mp ha
    exact absurd (by simp [hfst]) (hnone p hp)

theorem keysNodup_filter (m : Revmap) (p : String × RevEntry → Bool) (h : keysNodup m) :
    keysNodup (m.filter p) := by
  unfold keysNodup at *
  exact ((List.filter_sublist m).map Prod.fst).nodup h

theorem find?_filter_of_nodup (m : Revmap) (p : String × RevEntry → Bool) (r : String)
    (h : keysNodup m) :
    Revmap.find? (m.filter p) r = none ∨ Revmap.find? (m.filter p) r = Revmap.find? m r := by
  induction m with
  | nil => left; rfl
  | cons q m ih =>
    have hnd : keysNodup m := by
      unfold keysNodup at h ⊢
      exact (List.nodup_cons.mp h).2
    by_cases hq : q.1 = r
    · by_cases hp : p q
      · right
        rw [List.filter_cons_of_pos hp, revFind_cons, revFind_cons]
        simp [hq]
      · left
        rw [List.filter_cons_of_neg hp]
        have hr : r ∉ m.map Prod.fst := by
          unfold keysNodup at h
          have := (List.nodup_cons.mp h).1
          simpa [hq] using this
        unfold Revmap.find?
        have hfin : List.find? (fun x => (x.1 = r : Bool)) (m.filter p) = none := by
          rw [List.find?_eq_none]
          intro x hx
          have hxm : x ∈ m := List.mem_of_mem_filter hx
          simp only [decide_eq_true_eq]
          intro hxr
          exact hr (List.mem_map.mpr ⟨x, hxm, hxr⟩)
        rw [hfin]
        rfl
    · by_cases hp : p q
      · rw [List.filter_cons_of_pos hp, revFind_cons, revFind_cons]
        simp only [if_neg hq]
        exact ih hnd
      · rw [List.filter_cons_of_neg hp, revFind_cons]
        simp only [if_neg hq]
        exact ih hnd

theorem prune_revmap_find (tw : TreeWatcher) (r : String) (h : keysNodup tw.revmap) :
    (prune_revmap tw).revmap.find? r = none ∨
    (prune_revmap tw).revmap.find? r = tw.revmap.find? r :=
  find?_filter_of_nodup _ _ _ h

theorem keysNodup_prune (tw : TreeWatcher) (h : keysNodup tw.revmap) :
    keysNodup (prune_revmap tw).revmap :=
  keysNodup_filter _ _ h

/-! ## Claim theorems -/

/-- C3: the claim says `triggers_from_msg` returns a zero normal count, a
zero talos count and retry-enabled = true for a comment with no `try: `
line, and that registering such comments seeds the default failure-retry
policy.  The code instead returns the bare integer `0`, and `add_rev`'s
three-way tuple unpacking of that value raises `TypeError`, so registration
fails with an exception instead of seeding the default policy. -/
theorem c3_no_try_line_returns_bare_zero :
    triggers_from_msg "update bug summary" = .ok .bare0 ∧
    add_rev (TreeWatcher.init 2000 allowAll) "try" "abcdef123456"
      "update bug summary" "u" = .error .typeError := by
  constructor
  · rfl
  · rfl

/-- C2: the claim says a retry firing after its revision was evicted is a
safe no-op (re-checks `known_rev`, raises no error, recreates no registry
state).  The code never re-checks: on a registry without the revision,
`attempt_triggers` still performs the upstream lookup, increments the
global counter, then the `defaultdict` access `self.revmap[rev]['user']`
inserts a fresh empty entry for the evicted revision and raises
`KeyError('user')`. -/
theorem c2_retry_after_eviction_not_safe :
    attempt_triggers lkpOther (TreeWatcher.init 2000 allowAll)
        "try" "abcdef123456" "b1" 1 0 1 =
      ({ TreeWatcher.init 2000 allowAll with
          global_trigger_count := 1
          revmap := [("abcdef123456", {})] },
       .error (.keyError "user")) := by
  rfl

/-- C4 counterexample: registering a talos-only request
(`try: --rebuild-talos 3`) produces an entry holding *both*
`requested_trigger = (0, 3)` and `fail_retrigger = 1`, refuting the claim
that the two fields never coexist. -/
theorem c4_counterexample :
    (add_rev (TreeWatcher.init 2000 allowAll) "try" "abcdef123456"
        "try: --rebuild-talos 3" "u").toOption.bind
      (fun tw' => tw'.revmap.find? "abcdef123456") =
    some { requested_trigger := some (0, 3), fail_retrigger := some 1,
           rev_trigger_count := some 0, time_seen := some 0,
           seen_builders := some [], user := some "u" } := by
  rfl

/-- C1 counterexample: a single `TreeWatcher` instance (constructed with
the threshold 9 that the repository's own tests install) processes a
failure for revision `abcdef123456` (first rebuild), nine filler
registrations that push the registry over the threshold and evict that
revision, and then the same failure again — issuing a *second* rebuild
trigger for the same (branch, revision, builder) triple. -/
theorem c1_counterexample :
    countTriple (run_events lkpB1 noJobs (TreeWatcher.init 9 allowAll)
        evictionEvents).trigger_log "try" "abcdef123456" "b1" = 2 := by
  rfl

/-- C9 counterexample: `"aaaaaaaaaaaaa"` (13 characters) is not a
12-character lowercase alphanumeric identifier, yet `attempt_triggers`
does not reject it — `re.match` only anchors at the start — and with a
lookup oracle returning a rebuildable record the external trigger call is
issued for it. -/
theorem c9_counterexample :
    "aaaaaaaaaaaaa".length ≠ 12 ∧
    (attempt_triggers lkpB1
        { TreeWatcher.init 2000 allowAll with
            revmap := [("aaaaaaaaaaaaa", freshRetryEntry 0)] }
        "try" "aaaaaaaaaaaaa" "b1" 1 0 0).1.trigger_log =
      [.rebuild "try" "aaaaaaaaaaaaa" "b1" 1 (some 7) none] := by
  constructor
  · decide
  · rfl

/-- C10: the revision registry is keyed by revision alone.  `known_rev`
ignores its branch argument entirely, `add_rev` produces the same state
whatever branch is supplied, and an entry registered under branch `try`
is acted upon (a rebuild is issued) for a failure arriving under branch
`other`. -/
theorem c10_registry_ignores_branch :
    (∀ (tw : TreeWatcher) (b1 b2 r : String), known_rev tw b1 r = known_rev tw b2 r) ∧
    (∀ (tw : TreeWatcher) (b1 b2 r c u : String), add_rev tw b1 r c u = add_rev tw b2 r c u) ∧
    (failure_trigger lkpB1 demoState "other" "abcdef123456" "b1").1.trigger_log =
      [.rebuild "other" "abcdef123456" "b1" 1 (some 7) none] := by
  exact ⟨fun _ _ _ _ => rfl, fun _ _ _ _ _ _ => rfl, rfl⟩

/-- C6: `handle_message` invokes the failure path exactly on the two
recognized failure codes.  For any status other than 1 or 2 the whole
handler coincides with the handler with the failure step deleted; on the
demo state, status 1 and status 2 each produce a failure-driven rebuild,
while the pending status (`None`) and the success status (0) produce no
trigger action at all. -/
theorem c6_failure_path_exactly_on_1_2 :
    (∀ (lookup : Lookup) (jobs : JobsOracle) (tw : TreeWatcher)
        (key branch rev builder : String) (status : Option Int) (comments user : String),
        ¬ (status = some 1 ∨ status = some 2) →
        handle_message lookup jobs tw key branch rev builder status comments user =
        handle_message_no_failure lookup jobs tw key branch rev builder comments user) ∧
    ((handle_message lkpB1 noJobs demoState "x.finished" "try" "abcdef123456" "b1"
        (some 1) "" "u").1.trigger_log =
      [.rebuild "try" "abcdef123456" "b1" 1 (some 7) none]) ∧
    ((handle_message lkpB1 noJobs demoState "x.finished" "try" "abcdef123456" "b1"
        (some 2) "" "u").1.trigger_log =
      [.rebuild "try" "abcdef123456" "b1" 1 (some 7) none]) ∧
    ((handle_message lkpB1 noJobs demoState "x.finished" "try" "abcdef123456" "b1"
        none "" "u").1.trigger_log = []) ∧
    ((handle_message lkpB1 noJobs demoState "x.finished" "try" "abcdef123456" "b1"
        (some 0) "" "u").1.trigger_log = []) := by
  refine ⟨?_, rfl, rfl, rfl, rfl⟩
  intro lookup jobs tw key branch rev builder status comments user h
  unfold handle_message handle_message_no_failure
  simp only [if_neg h]

/-- Witness for C6 at a concrete non-failure status (success, 0): the
handler equals the failure-step-free handler. -/
theorem c6_witness :
    handle_message lkpB1 noJobs demoState "x.finished" "try" "abcdef123456" "b1"
        (some 0) "" "u" =
      handle_message_no_failure lkpB1 noJobs demoState "x.finished" "try"
        "abcdef123456" "b1" "" "u" :=
  c6_failure_path_exactly_on_1_2.1 lkpB1 noJobs demoState "x.finished" "try"
    "abcdef123456" "b1" (some 0) "" "u" (by decide)

/-- C7: the per-revision tolerance check.  Once the revision pattern,
lookup and builder-total guards pass, the trigger is suppressed (state
untouched, bare `return`) precisely when
`seen * failure_tolerance_factor > rev_total` *and*
`seen > lower_trigger_limit`; when either conjunct fails this check lets
the attempt proceed (observably: the global counter is charged `count`). -/
theorem c7_failure_tolerance :
    ∀ (lookup : Lookup) (tw : TreeWatcher) (branch rev builder : String)
      (count seen : Int) (attempt : Nat) (fb fr : Option Int) (bt rt : Int),
      matchesRevPattern rev = true →
      get_ids_for_rev lookup branch rev builder = some (fb, fr, bt, rt) →
      ¬ bt > count →
      ((seen * failure_tolerance_factor > rt ∧ seen > tw.lower_trigger_limit) →
        attempt_triggers lookup tw branch rev builder count seen attempt = (tw, .ok none)) ∧
      (¬ (seen * failure_tolerance_factor > rt ∧ seen > tw.lower_trigger_limit) →
        (attempt_triggers lookup tw branch rev builder count seen attempt).1.global_trigger_count
          = tw.global_trigger_count + count) := by
  intro lookup tw branch rev builder count seen attempt fb fr bt rt hm hids hbt
  constructor
  · intro htol
    unfold attempt_triggers
    simp only [hm, not_true, if_neg, hids, if_neg hbt, if_pos htol]
    simp
  · intro htol
    unfold attempt_triggers
    simp only [hm, hids, if_neg hbt, if_neg htol]
    cases hf : Revmap.find? tw.revmap rev with
    | none => simp [hf]
    | some entry =>
      cases hu : entry.user with
      | none => simp [hf, hu]
      | some u =>
        by_cases hib : tw.is_triggerbot_user u
        · simp only [hf, hu, hib, not_true, if_neg]
          by_cases h1 : truthyOptInt fb = true
          · simp [h1]
          · simp only [h1, if_false, Bool.false_eq_true]
            by_cases h2 : truthyOptInt fr = true
            · simp [h2]
            · simp only [h2, if_false, Bool.false_eq_true]
              by_cases h3 : attempt > 4
              · simp [h3]
              · simp [h3]
        · simp [hf, hu, hib]

/-- Helper: the allow-list branch of `attempt_triggers`.  When all earlier
guards pass and the recorded user is not a triggerbot user, the attempt
returns `count`, charges the global counter, and records only an
`accounted` action (no rebuild POST). -/
theorem attempt_triggers_not_alist_user (lookup : Lookup) (tw : TreeWatcher)
    (branch rev builder : String) (count seen : Int) (attempt : Nat)
    (fb fr : Option Int) (bt rt : Int) (entry : RevEntry) (u : String)
    (hm : matchesRevPattern rev = true)
    (hids : get_ids_for_rev lookup branch rev builder = some (fb, fr, bt, rt))
    (hbt : ¬ bt > count)
    (htol : ¬ (seen * failure_tolerance_factor > rt ∧ seen > tw.lower_trigger_limit))
    (hfind : tw.revmap.find? rev = some entry)
    (hu : entry.user = some u)
    (hib : tw.is_triggerbot_user u = false) :
    attempt_triggers lookup tw branch rev builder count seen attempt =
      ({ tw with
          global_trigger_count := tw.global_trigger_count + count
          trigger_log := tw.trigger_log ++ [.accounted branch rev builder count] },
       .ok (some count)) := by
  unfold attempt_triggers
  simp only [hm, hids, if_neg hbt, if_neg htol, hfind, hu, hib]
  simp

/-- Witness for C7: with one recorded job, `seen = 5` exceeds both the
tolerance product and the lower limit, so the attempt is suppressed; with
`seen = 0` it is not, and the global counter is charged. -/
theorem c7_witness :
    (attempt_triggers lkpB1 demoState "try" "abcdef123456" "b1" 1 5 0 =
      (demoState, .ok none)) ∧
    (attempt_triggers lkpB1 demoState "try" "abcdef123456" "b1" 1 0 0).1.global_trigger_count =
      demoState.global_trigger_count + 1 := by
  constructor
  · exact (c7_failure_tolerance lkpB1 demoState "try" "abcdef123456" "b1" 1 5 0
      (some 7) none 1 1 (by decide) (by rfl) (by decide)).1 (by decide)
  · exact (c7_failure_tolerance lkpB1 demoState "try" "abcdef123456" "b1" 1 0 0
      (some 7) none 1 1 (by decide) (by rfl) (by decide)).2 (by decide)

/-- C8: a submitting user missing from the allow-list suppresses the
external trigger call but the attempt is accounted as successful: the
global counter is charged, only an `accounted` (non-rebuild) action is
recorded, the count is returned — and on the failure path that count is
added to the revision's `rev_trigger_count`. -/
theorem c8_allowlist_accounted :
    (∀ (lookup : Lookup) (tw : TreeWatcher) (branch rev builder : String)
        (count seen : Int) (attempt : Nat) (fb fr : Option Int) (bt rt : Int)
        (entry : RevEntry) (u : String),
        matchesRevPattern rev = true →
        get_ids_for_rev lookup branch rev builder = some (fb, fr, bt, rt) →
        ¬ bt > count →
        ¬ (seen * failure_tolerance_factor > rt ∧ seen > tw.lower_trigger_limit) →
        tw.revmap.find? rev = some entry →
        entry.user = some u →
        tw.is_triggerbot_user u = false →
        attempt_triggers lookup tw branch rev builder count seen attempt =
          ({ tw with
              global_trigger_count := tw.global_trigger_count + count
              trigger_log := tw.trigger_log ++ [.accounted branch rev builder count] },
           .ok (some count))) ∧
    (∀ (lookup : Lookup) (tw : TreeWatcher) (branch rev builder : String)
        (c n : Int) (entry : RevEntry) (sb : List String) (u : String)
        (fb fr : Option Int) (bt rt : Int),
        tw.revmap.find? rev = some entry →
        entry.fail_retrigger = some c →
        entry.seen_builders = some sb →
        builder ∉ sb →
        builder ∉ tw.hidden_builders →
        entry.rev_trigger_count = some n →
        entry.user = some u →
        tw.is_triggerbot_user u = false →
        matchesRevPattern rev = true →
        get_ids_for_rev lookup branch rev builder = some (fb, fr, bt, rt) →
        ¬ bt > c →
        ¬ (n * failure_tolerance_factor > rt ∧ n > tw.lower_trigger_limit) →
        c ≠ 0 →
        ∃ entry',
          (failure_trigger lookup tw branch rev builder).1.revmap.find? rev = some entry' ∧
          entry'.rev_trigger_count = some (n + c)) := by
  constructor
  · intro lookup tw branch rev builder count seen attempt fb fr bt rt entry u
      hm hids hbt htol hfind hu hib
    exact attempt_triggers_not_alist_user lookup tw branch rev builder count seen attempt
      fb fr bt rt entry u hm hids hbt htol hfind hu hib
  · intro lookup tw branch rev builder c n entry sb u fb fr bt rt
      hfind hfr hsb hmem hhid hrtc hu hib hm hids hbt htol hc
    unfold failure_trigger
    simp only [hfind, hfr, hsb, if_neg hmem, if_neg hhid, hrtc]
    rw [if_neg (show ¬ ((some c : Option Int) = none) by simp)]
    set E1 : RevEntry :=
      { requested_trigger := entry.requested_trigger
        fail_retrigger := some c
        rev_trigger_count := some n
        time_seen := entry.time_seen
        seen_builders := some (sb ++ [builder])
        user := entry.user } with hE1
    set TW1 : TreeWatcher := { tw with revmap := tw.revmap.set rev E1 } with hTW1
    rw [attempt_triggers_not_alist_user lookup TW1 branch rev builder c n 0 fb fr bt rt E1 u
      hm hids hbt (by rw [hTW1]; simpa using htol)
      (by rw [hTW1]; exact find?_set_self _ _ _)
      (by rw [hE1]; exact hu)
      (by rw [hTW1]; simpa using hib)]
    simp only [if_pos hc]
    rw [show ({ TW1 with
        global_trigger_count := TW1.global_trigger_count + c
        trigger_log := TW1.trigger_log ++ [.accounted branch rev builder c] } :
          TreeWatcher).revmap.find? rev = some E1 by
      rw [hTW1]; exact find?_set_self _ _ _]
    simp only [hE1]
    exact ⟨_, find?_set_self _ _ _, rfl⟩

/-- Witness for C8: a watcher whose allow-list rejects user `"u"` accounts
the failure attempt (global counter 1, an `accounted` action, no rebuild)
and adds the count to `rev_trigger_count`. -/
theorem c8_witness :
    (attempt_triggers lkpB1
        { demoState with is_triggerbot_user := fun _ => false }
        "try" "abcdef123456" "b1" 1 0 0 =
      ({ { demoState with is_triggerbot_user := fun _ => false } with
          global_trigger_count := 1
          trigger_log := [.accounted "try" "abcdef123456" "b1" 1] },
       .ok (some 1))) ∧
    (∃ entry',
      (failure_trigger lkpB1 { demoState with is_triggerbot_user := fun _ => false }
          "try" "abcdef123456" "b1").1.revmap.find? "abcdef123456" = some entry' ∧
      entry'.rev_trigger_count = some (0 + 1)) := by
  constructor
  · have h := c8_allowlist_accounted.1 lkpB1
      { demoState with is_triggerbot_user := fun _ => false }
      "try" "abcdef123456" "b1" 1 0 0 (some 7) none 1 1 (freshRetryEntry 0) "u"
      (by decide) (by rfl) (by decide) (by decide) (by rfl) (by rfl) (by rfl)
    simpa using h
  · exact c8_allowlist_accounted.2 lkpB1
      { demoState with is_triggerbot_user := fun _ => false }
      "try" "abcdef123456" "b1" 1 0 (freshRetryEntry 0) [] "u" (some 7) none 1 1
      (by rfl) (by rfl) (by rfl) (by decide) (by decide) (by rfl) (by rfl) (by rfl)
      (by decide) (by rfl) (by decide) (by decide) (by decide)

theorem listfind_none_of_revfind_none (m : Revmap) (r : String)
    (h : Revmap.find? m r = none) :
    List.find? (fun p => (p.1 = r : Bool)) m = none := by
  unfold Revmap.find? at h
  cases hf : List.find? (fun p => (p.1 = r : Bool)) m with
  | none => rfl
  | some v => rw [hf] at h; simp at h

theorem set_length_of_fresh (m : Revmap) (r : String) (e : RevEntry)
    (h : Revmap.find? m r = none) :
    (Revmap.set m r e).length = m.length + 1 := by
  unfold Revmap.set
  rw [listfind_none_of_revfind_none m r h]
  simp

/-- C4 amended: after `add_rev` registers a previously unknown revision
(without tripping eviction), the entry carries `requested_trigger` iff some
requested count is non-zero, carries `fail_retrigger` iff retry is enabled
and the *normal* requested count is zero — so the two fields coexist
exactly for a talos-only request without a retry opt-out.  A non-zero
normal rebuild count suppresses the failure-retry policy; a talos-only
request does not. -/
theorem c4_amended :
    ∀ (tw : TreeWatcher) (branch rev comments user : String) (q t : Int) (r : Bool),
      triggers_from_msg comments = .ok (.counts q t r) →
      tw.revmap.find? rev = none →
      tw.revmap.length < tw.revmap_threshold →
      ∃ tw' e, add_rev tw branch rev comments user = .ok tw' ∧
        tw'.revmap.find? rev = some e ∧
        (e.requested_trigger ≠ none ↔ (q ≠ 0 ∨ t ≠ 0)) ∧
        (e.fail_retrigger ≠ none ↔ (r = true ∧ q = 0)) ∧
        ((e.requested_trigger ≠ none ∧ e.fail_retrigger ≠ none) ↔
          (q = 0 ∧ t ≠ 0 ∧ r = true)) := by
  intro tw branch rev comments user q t r hmsg hfresh hlen
  unfold add_rev
  rw [hmsg]
  simp only [hfresh, Option.getD_none]
  rw [if_neg (by
    rw [set_length_of_fresh tw.revmap rev _ hfresh]
    omega)]
  refine ⟨_, _, rfl, find?_set_self _ _ _, ?_, ?_, ?_⟩ <;>
    (by_cases hq : q = 0 <;> by_cases ht : t = 0 <;> by_cases hr : r = true <;>
      simp [hq, ht, hr])

/-- Witness for C4 amended: registering `try: --rebuild-talos 3` on an
empty registry yields an entry where the characterizations hold for
`(q, t, r) = (0, 3, true)` — in particular both fields coexist. -/
theorem c4_amended_witness :
    ∃ tw' e, add_rev (TreeWatcher.init 2000 allowAll) "try" "abcdef123456"
        "try: --rebuild-talos 3" "u" = .ok tw' ∧
      tw'.revmap.find? "abcdef123456" = some e ∧
      (e.requested_trigger ≠ none ↔ ((0 : Int) ≠ 0 ∨ (3 : Int) ≠ 0)) ∧
      (e.fail_retrigger ≠ none ↔ (true = true ∧ (0 : Int) = 0)) ∧
      ((e.requested_trigger ≠ none ∧ e.fail_retrigger ≠ none) ↔
        ((0 : Int) = 0 ∧ (3 : Int) ≠ 0 ∧ true = true)) :=
  c4_amended (TreeWatcher.init 2000 allowAll) "try" "abcdef123456"
    "try: --rebuild-talos 3" "u" 0 3 true (by rfl) (by rfl) (by decide)

/-- C9 amended: the immediate-rejection check of `attempt_triggers`
rejects exactly the revision strings whose first 12 characters are not 12
lowercase alphanumerics (the `re.match` prefix semantics): such strings
yield an unchanged state and a bare return for *any* watcher and oracle,
while any string carrying such a 12-character prefix — whatever its length
or remaining characters — passes the check, and on a registered revision
the trigger is issued. -/
theorem c9_amended :
    (∀ (lookup : Lookup) (tw : TreeWatcher) (branch rev builder : String)
        (count seen : Int) (attempt : Nat),
        matchesRevPattern rev = false →
        attempt_triggers lookup tw branch rev builder count seen attempt = (tw, .ok none)) ∧
    (∀ rev : String, matchesRevPattern rev = true →
        (attempt_triggers lkpB1 (c9State rev) "try" rev "b1" 1 0 0).2 = .ok (some 1)) := by
  constructor
  · intro lookup tw branch rev builder count seen attempt h
    unfold attempt_triggers
    rw [if_pos (by simp [h])]
  · intro rev h
    unfold attempt_triggers
    rw [if_neg (by simp [h])]
    rw [show get_ids_for_rev lkpB1 "try" rev "b1" =
      some (some 7, none, 1, 1) from rfl]
    dsimp only
    rw [if_neg (by decide : ¬ (1 : Int) > 1)]
    rw [if_neg (show ¬ ((0 : Int) * failure_tolerance_factor > 1 ∧
        (0 : Int) > (c9State rev).lower_trigger_limit) by
      rw [show (c9State rev).lower_trigger_limit = 4 from rfl]
      decide)]
    rw [show ((c9State rev).revmap.find? rev : Option RevEntry) =
        some (freshRetryEntry 0) by
      show Revmap.find? [(rev, freshRetryEntry 0)] rev = some (freshRetryEntry 0)
      rw [revFind_cons]
      simp]
    dsimp only
    rw [show (freshRetryEntry 0).user = some "u" from rfl]
    dsimp only
    rw [if_neg (show ¬ ¬ (c9State rev).is_triggerbot_user "u" = true by
      rw [show (c9State rev).is_triggerbot_user "u" = true from rfl]
      simp)]
    rw [if_pos (show truthyOptInt (some 7) = true by decide)]

/-- Witness for C9 amended: the 13-character string of `a`s passes the
prefix check (and is triggered), while `"UPPER"` fails it (and is
rejected with the state untouched). -/
theorem c9_amended_witness :
    (attempt_triggers lkpB1 (c9State "aaaaaaaaaaaaa") "try" "aaaaaaaaaaaaa" "b1"
        1 0 0).2 = .ok (some 1) ∧
    attempt_triggers lkpB1 (c9State "UPPER") "try" "UPPER" "b1" 1 0 0 =
      (c9State "UPPER", .ok none) :=
  ⟨c9_amended.2 "aaaaaaaaaaaaa" (by decide),
   c9_amended.1 lkpB1 (c9State "UPPER") "try" "UPPER" "b1" 1 0 0 (by decide)⟩

/-- Behaviour of `_prune_revmap` on a registry whose size exceeds the
threshold and whose `time_seen` stamps are pairwise distinct: the result
has exactly `threshold * 2 / 3` entries, every evicted entry is strictly
older than every kept entry, and every kept entry comes from the input. -/
theorem prune_spec (tw1 : TreeWatcher)
    (hnd : keysNodup tw1.revmap)
    (htd : tw1.revmap.Pairwise fun p p' => timeOf p ≠ timeOf p')
    (hlen : tw1.revmap_threshold < tw1.revmap.length) :
    (prune_revmap tw1).revmap.length = tw1.revmap_threshold * 2 / 3 ∧
    (∀ p ∈ tw1.revmap, ¬ p.1 ∈ (prune_revmap tw1).revmap.map Prod.fst →
      ∀ kept ∈ (prune_revmap tw1).revmap, timeOf p < timeOf kept) ∧
    (∀ kept ∈ (prune_revmap tw1).revmap, kept ∈ tw1.revmap) := by
  classical
  have hres : (prune_revmap tw1).revmap =
      tw1.revmap.filter (fun p => ¬ p.1 ∈
        (((tw1.revmap.insertionSort entryLE).take
            (tw1.revmap.length - tw1.revmap_threshold * 2 / 3)).map Prod.fst)) := rfl
  set L := tw1.revmap with hL
  set tgt := tw1.revmap_threshold * 2 / 3 with htgt
  set k := L.length - tgt with hk
  set S := L.insertionSort entryLE with hS
  set victims := (S.take k).map Prod.fst with hvict
  have hperm : List.Perm S L := List.perm_insertionSort entryLE L
  have hsorted : List.Sorted entryLE S := List.sorted_insertionSort entryLE L
  have hkeysS : (S.map Prod.fst).Nodup := (hperm.map Prod.fst).nodup_iff.mpr hnd
  have htdS : S.Pairwise (fun p p' => timeOf p ≠ timeOf p') :=
    (hperm.pairwise_iff (fun h => h.symm)).mpr htd
  have hSsplit : S.take k ++ S.drop k = S := List.take_append_drop k S
  have htake_nil :
      (S.take k).filter (fun p => ¬ p.1 ∈ victims) = [] := by
    rw [List.filter_eq_nil_iff]
    intro q hq
    simp only [decide_not, Bool.not_eq_true', Bool.not_eq_false, decide_eq_true_eq]
    exact List.mem_map_of_mem Prod.fst hq
  have hdrop_keep :
      (S.drop k).filter (fun p => ¬ p.1 ∈ victims) = S.drop k := by
    rw [List.filter_eq_self]
    intro q hq
    simp only [decide_not, Bool.not_eq_true', Bool.not_eq_false, decide_eq_true_eq,
      Bool.not_eq_true, decide_eq_false_iff_not]
    intro hmem
    obtain ⟨q', hq', hq'eq⟩ := List.mem_map.mp hmem
    have : (S.map Prod.fst).Nodup := hkeysS
    rw [← hSsplit, List.map_append, List.nodup_append] at this
    exact this.2.2 (List.mem_map_of_mem Prod.fst hq')
      (by rw [hq'eq]; exact List.mem_map_of_mem Prod.fst hq)
  have hfilterS : S.filter (fun p => ¬ p.1 ∈ victims) = S.drop k := by
    rw [← hSsplit, List.filter_append, htake_nil, hdrop_keep]
    rw [hSsplit]
    simp
  have hpermres : List.Perm (prune_revmap tw1).revmap (S.drop k) := by
    rw [hres, ← hfilterS]
    exact (hperm.symm.filter _)
  have hcross_le : ∀ a ∈ S.take k, ∀ b ∈ S.drop k, entryLE a b := by
    have := hsorted
    rw [← hSsplit] at this
    exact (List.pairwise_append.mp this).2.2
  have hcross_ne : ∀ a ∈ S.take k, ∀ b ∈ S.drop k, timeOf a ≠ timeOf b := by
    have := htdS
    rw [← hSsplit] at this
    exact (List.pairwise_append.mp this).2.2
  have htgt_le : tgt ≤ L.length := by
    have h1 : tw1.revmap_threshold * 2 / 3 ≤ tw1.revmap_threshold := by omega
    exact le_trans h1 (le_of_lt hlen)
  refine ⟨?_, ?_, ?_⟩
  · rw [hpermres.length_eq, List.length_drop, hperm.length_eq]
    omega
  · intro p hpL hpnot kept hkept
    have hpS : p ∈ S := hperm.mem_iff.mpr hpL
    have hkeptdrop : kept ∈ S.drop k := hpermres.mem_iff.mp hkept
    have hpnotdrop : ¬ p.1 ∈ (S.drop k).map Prod.fst := by
      intro hmem
      exact hpnot ((hpermres.map Prod.fst).mem_iff.mpr hmem)
    have hptake : p ∈ S.take k := by
      rw [← hSsplit] at hpS
      rcases List.mem_append.mp hpS with h | h
      · exact h
      · exact absurd (List.mem_map_of_mem Prod.fst h) hpnotdrop
    exact lt_of_le_of_ne (hcross_le p hptake kept hkeptdrop)
      (hcross_ne p hptake kept hkeptdrop)
  · intro kept hkept
    rw [hres] at hkept
    exact List.mem_of_mem_filter hkept

theorem set_append_of_fresh (m : Revmap) (r : String) (e : RevEntry)
    (h : Revmap.find? m r = none) :
    m.set r e = m ++ [(r, e)] := by
  unfold Revmap.set
  rw [listfind_none_of_revfind_none m r h]
  simp

/-- `add_rev` on successfully parsed comments writes *some* entry whose
`time_seen` is the current clock, then prunes when over threshold. -/
theorem add_rev_ok_shape (tw : TreeWatcher) (branch rev comments user : String)
    (q t : Int) (r : Bool)
    (hmsg : triggers_from_msg comments = .ok (.counts q t r)) :
    ∃ E : RevEntry, E.time_seen = some tw.clock ∧ E.seen_builders = some [] ∧
      add_rev tw branch rev comments user = .ok (
        if (tw.revmap.set rev E).length > tw.revmap_threshold then
          prune_revmap { tw with
            revmap := tw.revmap.set rev E
            clock := tw.clock + 1
            trigger_log := tw.trigger_log ++ [.registered rev] }
        else { tw with
          revmap := tw.revmap.set rev E
          clock := tw.clock + 1
          trigger_log := tw.trigger_log ++ [.registered rev] }) := by
  unfold add_rev
  rw [hmsg]
  exact ⟨_, rfl, rfl, rfl⟩

/-- C5: when registering a new revision pushes the registry past the
threshold, eviction runs immediately inside `add_rev`: the resulting
registry has exactly `⌊threshold * 2 / 3⌋` entries, every evicted entry is
strictly older (`time_seen`) than every kept one, every kept entry is the
new revision or came from the old registry, and the newly inserted
revision is retained. -/
theorem c5_eviction :
    ∀ (tw : TreeWatcher) (branch rev comments user : String) (q t : Int) (r : Bool),
      triggers_from_msg comments = .ok (.counts q t r) →
      keysNodup tw.revmap →
      tw.revmap.find? rev = none →
      tw.revmap_threshold ≤ tw.revmap.length →
      2 ≤ tw.revmap_threshold →
      (∀ p ∈ tw.revmap, ∃ t0, p.2.time_seen = some t0 ∧ t0 < tw.clock) →
      tw.revmap.Pairwise (fun p p' => timeOf p ≠ timeOf p') →
      ∃ tw', add_rev tw branch rev comments user = .ok tw' ∧
        tw'.revmap.length = tw.revmap_threshold * 2 / 3 ∧
        (∀ p ∈ tw.revmap, ¬ p.1 ∈ tw'.revmap.map Prod.fst →
          ∀ kept ∈ tw'.revmap, timeOf p < timeOf kept) ∧
        (∀ kept ∈ tw'.revmap, kept.1 = rev ∨ kept ∈ tw.revmap) ∧
        (∃ e, (rev, e) ∈ tw'.revmap) := by
  intro tw branch rev comments user q t r hmsg hnd hfresh hthr h2 htimes hdist
  obtain ⟨E, hEtime, hEsb, hadd⟩ := add_rev_ok_shape tw branch rev comments user q t r hmsg
  have happend : tw.revmap.set rev E = tw.revmap ++ [(rev, E)] :=
    set_append_of_fresh tw.revmap rev E hfresh
  have hsetlen : (tw.revmap.set rev E).length = tw.revmap.length + 1 :=
    set_length_of_fresh tw.revmap rev E hfresh
  rw [hadd, if_pos (by omega)]
  set TW1 : TreeWatcher := { tw with
    revmap := tw.revmap.set rev E
    clock := tw.clock + 1
    trigger_log := tw.trigger_log ++ [.registered rev] } with hTW1
  have hTW1map : TW1.revmap = tw.revmap ++ [(rev, E)] := by rw [hTW1]; exact happend
  have hnd1 : keysNodup TW1.revmap := by
    rw [hTW1]
    exact keysNodup_set tw.revmap rev E hnd
  have htime_new : timeOf (rev, E) = tw.clock := by
    unfold timeOf
    rw [hEtime]
    rfl
  have hdist1 : TW1.revmap.Pairwise (fun p p' => timeOf p ≠ timeOf p') := by
    rw [hTW1map]
    rw [List.pairwise_append]
    refine ⟨hdist, by simp, ?_⟩
    intro a ha b hb
    simp only [List.mem_singleton] at hb
    subst hb
    obtain ⟨t0, ht0, hlt⟩ := htimes a ha
    rw [htime_new]
    unfold timeOf
    rw [ht0]
    simpa using Nat.ne_of_lt hlt
  have hlen1 : TW1.revmap_threshold < TW1.revmap.length := by
    rw [hTW1map]
    have : TW1.revmap_threshold = tw.revmap_threshold := by rw [hTW1]
    rw [this]
    simp only [List.length_append, List.length_singleton]
    omega
  obtain ⟨hplen, hpold, hpsub⟩ := prune_spec TW1 hnd1 hdist1 hlen1
  have hthr_eq : TW1.revmap_threshold = tw.revmap_threshold := by rw [hTW1]
  refine ⟨prune_revmap TW1, rfl, by rw [hplen, hthr_eq], ?_, ?_, ?_⟩
  · intro p hp hnot kept hkept
    exact hpold p (by rw [hTW1map]; exact List.mem_append_left _ hp) hnot kept hkept
  · intro kept hkept
    have := hpsub kept hkept
    rw [hTW1map] at this
    rcases List.mem_append.mp this with h | h
    · exact Or.inr h
    · simp only [List.mem_singleton] at h
      subst h
      exact Or.inl rfl
  · by_contra hno
    push_neg at hno
    have hrevnot : ¬ rev ∈ (prune_revmap TW1).revmap.map Prod.fst := by
      intro hmem
      obtain ⟨p, hp, hpeq⟩ := List.mem_map.mp hmem
      exact hno p.2 (by
        have : p = (rev, p.2) := by
          rw [← hpeq]
        rw [← this]
        exact hp)
    have hclock_lt := hpold (rev, E)
      (by rw [hTW1map]; exact List.mem_append_right _ (by simp)) hrevnot
    have hne : (prune_revmap TW1).revmap ≠ [] := by
      intro hnil
      rw [hnil] at hplen
      simp at hplen
      rw [hthr_eq] at hplen
      omega
    obtain ⟨kept, hkept⟩ := List.exists_mem_of_ne_nil _ hne
    have hlt := hclock_lt kept hkept
    rw [htime_new] at hlt
    have := hpsub kept hkept
    rw [hTW1map] at this
    rcases List.mem_append.mp this with h | h
    · obtain ⟨t0, ht0, ht0lt⟩ := htimes kept h
      have : timeOf kept = t0 := by unfold timeOf; rw [ht0]; rfl
      omega
    · simp only [List.mem_singleton] at h
      subst h
      exact hno E hkept

/-- Witness for C5: inserting a fourth revision into a threshold-3
registry evicts down to `3 * 2 / 3 = 2` entries, strictly oldest first,
and retains the new revision. -/
theorem c5_eviction_witness :
    ∃ tw', add_rev c5State "try" "r4" "try: x" "u" = .ok tw' ∧
      tw'.revmap.length = c5State.revmap_threshold * 2 / 3 ∧
      (∀ p ∈ c5State.revmap, ¬ p.1 ∈ tw'.revmap.map Prod.fst →
        ∀ kept ∈ tw'.revmap, timeOf p < timeOf kept) ∧
      (∀ kept ∈ tw'.revmap, kept.1 = "r4" ∨ kept ∈ c5State.revmap) ∧
      (∃ e, ("r4", e) ∈ tw'.revmap) :=
  c5_eviction c5State "try" "r4" "try: x" "u" 0 0 true
    (by rfl) (by unfold keysNodup; decide) (by rfl) (by decide) (by decide)
    (by
      intro p hp
      simp only [c5State, List.mem_cons, List.not_mem_nil, or_false] at hp
      rcases hp with h | h | h <;> subst h <;> exact ⟨_, rfl, by decide⟩)
    (by decide)

/-! ## Counting and effect lemmas for the deduplication invariant -/

theorem countRB_append (l₁ l₂ : List TriggerAction) (r bl : String) :
    countRB (l₁ ++ l₂) r bl = countRB l₁ r bl + countRB l₂ r bl := by
  simp [countRB, List.countP_append]

theorem countReg_append (l₁ l₂ : List TriggerAction) (r : String) :
    countReg (l₁ ++ l₂) r = countReg l₁ r + countReg l₂ r := by
  simp [countReg, List.countP_append]

theorem countTriple_le_countRB (log : List TriggerAction) (b r bl : String) :
    countTriple log b r bl ≤ countRB log r bl := by
  unfold countTriple countRB
  apply List.countP_mono_left
  intro a _ h
  simp only [Bool.and_eq_true, beq_iff_eq, Bool.not_eq_true'] at h ⊢
  exact ⟨⟨h.1.1.1, h.1.2⟩, h.2⟩

theorem countRB_registered (log : List TriggerAction) (r bl r0 : String) :
    countRB (log ++ [.registered r0]) r bl = countRB log r bl := by
  simp [countRB, List.countP_append, List.countP_cons, TriggerAction.isReg]

theorem countReg_registered (log : List TriggerAction) (r r0 : String) :
    countReg (log ++ [.registered r0]) r =
      countReg log r + (if r0 = r then 1 else 0) := by
  simp only [countReg, List.countP_append, List.countP_cons, List.countP_nil]
  by_cases h : r0 = r
  · simp [h]
  · simp [h]

theorem countReg_nonreg (log : List TriggerAction) (r : String) (a : TriggerAction)
    (h : a.isReg = false) :
    countReg (log ++ [a]) r = countReg log r := by
  simp only [countReg, List.countP_append, List.countP_cons, List.countP_nil]
  cases a <;> simp_all [TriggerAction.isReg]

theorem countRB_single_le (log : List TriggerAction) (r bl : String) (a : TriggerAction) :
    countRB (log ++ [a]) r bl ≤ countRB log r bl + 1 := by
  rw [countRB_append]
  have : countRB [a] r bl ≤ 1 := by
    unfold countRB
    exact le_trans (List.countP_le_length _) (by simp)
  omega

theorem countRB_single_ne (log : List TriggerAction) (r bl : String) (a : TriggerAction)
    (h : a.rev ≠ r ∨ a.builder ≠ bl) :
    countRB (log ++ [a]) r bl = countRB log r bl := by
  rw [countRB_append]
  have : countRB [a] r bl = 0 := by
    unfold countRB
    rcases h with h | h <;> simp [List.countP_cons, h]
  omega

theorem attempt_triggers_effects (lookup : Lookup) (tw : TreeWatcher)
    (branch rev builder : String) (count seen : Int) (attempt : Nat) :
    ((attempt_triggers lookup tw branch rev builder count seen attempt).1.revmap = tw.revmap ∨
      (tw.revmap.find? rev = none ∧
        (attempt_triggers lookup tw branch rev builder count seen attempt).1.revmap =
          tw.revmap.set rev {})) ∧
    ((attempt_triggers lookup tw branch rev builder count seen attempt).1.trigger_log =
        tw.trigger_log ∨
      ∃ a, (attempt_triggers lookup tw branch rev builder count seen attempt).1.trigger_log =
          tw.trigger_log ++ [a] ∧
        a.rev = rev ∧ a.builder = builder ∧ a.isReg = false) ∧
    (attempt_triggers lookup tw branch rev builder count seen attempt).1.hidden_builders =
      tw.hidden_builders := by
  unfold attempt_triggers
  dsimp only
  repeat' split
  all_goals first
    | exact ⟨Or.inl rfl, Or.inl rfl, rfl⟩
    | exact ⟨Or.inl rfl, Or.inr ⟨_, rfl, rfl, rfl, rfl⟩, rfl⟩
    | exact ⟨Or.inr ⟨by assumption, rfl⟩, Or.inl rfl, rfl⟩

theorem attempt_revmap_of_found (lookup : Lookup) (tw : TreeWatcher)
    (branch rev builder : String) (count seen : Int) (attempt : Nat) (e : RevEntry)
    (h : tw.revmap.find? rev = some e) :
    (attempt_triggers lookup tw branch rev builder count seen attempt).1.revmap =
      tw.revmap := by
  rcases (attempt_triggers_effects lookup tw branch rev builder count seen attempt).1 with
    h1 | ⟨h2, _⟩
  · exact h1
  · rw [h] at h2
    cases h2

/-- The state reached by a trigger path that marked `builder` seen on
`rev`'s entry and then ran `attempt_triggers` satisfies the deduplication
invariant: shared core for the requested and failure paths. -/
theorem path_step_dedup (tw : TreeWatcher) (tw' : TreeWatcher)
    (rev builder : String) (entry : RevEntry) (sb sb1 : List String) (e1 : RevEntry)
    (hnd : keysNodup tw.revmap)
    (hbound : ∀ r bl, countRB tw.trigger_log r bl + slack tw r bl ≤
      countReg tw.trigger_log r)
    (hfind : tw.revmap.find? rev = some entry)
    (hsb : entry.seen_builders = some sb)
    (hmem : builder ∉ sb)
    (hsb1 : e1.seen_builders = some sb1)
    (hsb1mem : ∀ b, b ∈ sb1 ↔ (b ∈ sb ∨ b = builder))
    (hmap : tw'.revmap = tw.revmap.set rev e1)
    (hlog : tw'.trigger_log = tw.trigger_log ∨
      ∃ a, tw'.trigger_log = tw.trigger_log ++ [a] ∧
        a.rev = rev ∧ a.builder = builder ∧ a.isReg = false) :
    DedupInv tw' := by
  have hslack_self : ∀ bl', slack tw' rev bl' = if bl' ∈ sb1 then 0 else 1 := by
    intro bl'
    unfold slack
    rw [hmap, find?_set_self]
    dsimp only
    rw [hsb1]
  have hslack_ne : ∀ r' bl', r' ≠ rev → slack tw' r' bl' = slack tw r' bl' := by
    intro r' bl' hr
    unfold slack
    rw [hmap, find?_set_ne _ _ _ _ hr]
  have hslack_pre : slack tw rev builder = 1 := by
    unfold slack
    rw [hfind]
    dsimp only
    rw [hsb]
    dsimp only
    rw [if_neg hmem]
  constructor
  · show keysNodup tw'.revmap
    rw [hmap]
    exact keysNodup_set _ _ _ hnd
  · intro r' bl'
    by_cases hr : r' = rev
    · subst hr
      by_cases hbl : bl' = builder
      · subst hbl
        have h1 := hbound r' bl'
        rw [hslack_pre] at h1
        have hs' : slack tw' r' bl' = 0 := by
          rw [hslack_self]
          rw [if_pos ((hsb1mem bl').mpr (Or.inr rfl))]
        rcases hlog with h | ⟨a, ha, _, _, hreg⟩
        · rw [h, hs']
          omega
        · rw [ha, hs', countReg_nonreg _ _ _ hreg]
          have := countRB_single_le tw.trigger_log r' bl' a
          omega
      · have h1 := hbound r' bl'
        have hpre : slack tw r' bl' = if bl' ∈ sb then 0 else 1 := by
          unfold slack
          rw [hfind]
          dsimp only
          rw [hsb]
        have hs' : slack tw' r' bl' = slack tw r' bl' := by
          rw [hslack_self, hpre]
          have hiff : (bl' ∈ sb1) ↔ (bl' ∈ sb) := by
            rw [hsb1mem]
            simp [hbl]
          by_cases hb : bl' ∈ sb
          · rw [if_pos (hiff.mpr hb), if_pos hb]
          · rw [if_neg (fun hh => hb (hiff.mp hh)), if_neg hb]
        rcases hlog with h | ⟨a, ha, _, hab, hreg⟩
        · rw [h, hs']
          exact h1
        · rw [ha, hs', countReg_nonreg _ _ _ hreg,
            countRB_single_ne _ _ _ _ (Or.inr (by rw [hab]; exact Ne.symm hbl))]
          exact h1
    · have h1 := hbound r' bl'
      have hs' : slack tw' r' bl' = slack tw r' bl' := hslack_ne r' bl' hr
      rcases hlog with h | ⟨a, ha, har, _, hreg⟩
      · rw [h, hs']
        exact h1
      · rw [ha, hs', countReg_nonreg _ _ _ hreg,
          countRB_single_ne _ _ _ _ (Or.inl (by rw [har]; exact Ne.symm hr))]
        exact h1

theorem requested_trigger_dedup (lookup : Lookup) (tw : TreeWatcher)
    (branch rev builder : String) (hInv : DedupInv tw) :
    DedupInv (requested_trigger lookup tw branch rev builder).1 := by
  obtain ⟨hnd, hbound⟩ := hInv
  unfold requested_trigger
  cases hfind : tw.revmap.find? rev with
  | none => exact ⟨hnd, hbound⟩
  | some entry =>
    dsimp only
    cases hreq : entry.requested_trigger with
    | none => exact ⟨hnd, hbound⟩
    | some ct =>
      obtain ⟨c0, t0⟩ := ct
      dsimp only
      cases hsb : entry.seen_builders with
      | none => exact ⟨hnd, hbound⟩
      | some sb =>
        dsimp only
        by_cases hmem : builder ∈ sb
        · rw [if_pos hmem]
          exact ⟨hnd, hbound⟩
        · rw [if_neg hmem]
          split
          all_goals
            refine path_step_dedup tw _ rev builder entry sb (sb ++ [builder])
              ⟨some (c0, t0), entry.fail_retrigger, entry.rev_trigger_count, entry.time_seen, some (sb ++ [builder]), entry.user⟩
              hnd hbound hfind hsb hmem rfl (by intro b; simp) ?_ ?_
          all_goals first
            | exact attempt_revmap_of_found _ _ _ _ _ _ _ _ _ (find?_set_self _ _ _)
            | exact (attempt_triggers_effects _ _ _ _ _ _ _ _).2.1

theorem rtc_update_dedup (tw' : TreeWatcher) (rev : String) (entry2 : RevEntry)
    (v : Int) (hInv : DedupInv tw') (hfind2 : tw'.revmap.find? rev = some entry2) :
    DedupInv { tw' with revmap := tw'.revmap.set rev ({ entry2 with rev_trigger_count := some v }) } := by
  obtain ⟨hnd', hbound'⟩ := hInv
  refine ⟨?_, ?_⟩
  · show keysNodup (tw'.revmap.set rev _)
    exact keysNodup_set _ _ _ hnd'
  · intro r' bl'
    have hb := hbound' r' bl'
    have hslack : slack { tw' with revmap := tw'.revmap.set rev ({ entry2 with rev_trigger_count := some v }) } r' bl' = slack tw' r' bl' := by
      unfold slack
      by_cases hr : r' = rev
      · subst hr
        dsimp only
        rw [find?_set_self, hfind2]
      · dsimp only
        rw [find?_set_ne _ _ _ _ hr]
    show countRB _ r' bl' + slack _ r' bl' ≤ countReg _ r'
    rw [hslack]
    exact hb

theorem failure_trigger_dedup (lookup : Lookup) (tw : TreeWatcher)
    (branch rev builder : String) (hInv : DedupInv tw) :
    DedupInv (failure_trigger lookup tw branch rev builder).1 := by
  obtain ⟨hnd, hbound⟩ := hInv
  unfold failure_trigger
  cases hfind : tw.revmap.find? rev with
  | none => exact ⟨hnd, hbound⟩
  | some entry =>
    dsimp only
    by_cases hfr0 : entry.fail_retrigger = none
    · rw [if_pos hfr0]
      exact ⟨hnd, hbound⟩
    · rw [if_neg hfr0]
      cases hsb : entry.seen_builders with
      | none => exact ⟨hnd, hbound⟩
      | some sb =>
        dsimp only
        by_cases hmem : builder ∈ sb
        · rw [if_pos hmem]
          exact ⟨hnd, hbound⟩
        · rw [if_neg hmem]
          by_cases hhid : builder ∈ tw.hidden_builders
          · rw [if_pos hhid]
            exact ⟨hnd, hbound⟩
          · rw [if_neg hhid]
            cases hfr : entry.fail_retrigger with
            | none => exact absurd hfr hfr0
            | some c =>
              dsimp only
              cases hrtc : entry.rev_trigger_count with
              | none =>
                exact path_step_dedup tw _ rev builder entry sb (sb ++ [builder])
                  ⟨entry.requested_trigger, some c, none, entry.time_seen, some (sb ++ [builder]), entry.user⟩
                  hnd hbound hfind hsb hmem rfl (by intro b; simp) rfl (Or.inl rfl)
              | some n =>
                dsimp only
                have hstep : DedupInv (attempt_triggers lookup
                    ({ tw with revmap := tw.revmap.set rev ⟨entry.requested_trigger, some c, some n, entry.time_seen, some (sb ++ [builder]), entry.user⟩ })
                    branch rev builder c n 0).1 := by
                  refine path_step_dedup tw _ rev builder entry sb (sb ++ [builder])
                    ⟨entry.requested_trigger, some c, some n, entry.time_seen, some (sb ++ [builder]), entry.user⟩
                    hnd hbound hfind hsb hmem rfl (by intro b; simp) ?_ ?_
                  · exact attempt_revmap_of_found _ _ _ _ _ _ _ _ _ (find?_set_self _ _ _)
                  · exact (attempt_triggers_effects _ _ _ _ _ _ _ _).2.1
                split
                · exact hstep
                · exact hstep
                · rename_i triggered heq2
                  split
                  · split
                    · exact hstep
                    · rename_i entry2 hfind2
                      split
                      · exact hstep
                      · rename_i n2 hrtc2
                        exact rtc_update_dedup _ rev entry2 (n2 + triggered) hstep hfind2
                  · exact hstep

theorem dedup_of_same (tw tw' : TreeWatcher) (hmap : tw'.revmap = tw.revmap)
    (hlog : tw'.trigger_log = tw.trigger_log) (h : DedupInv tw) : DedupInv tw' := by
  obtain ⟨hnd, hb⟩ := h
  refine ⟨by rw [show keysNodup tw'.revmap = keysNodup tw.revmap by rw [hmap]]; exact hnd, ?_⟩
  intro r bl
  have hs : slack tw' r bl = slack tw r bl := by
    unfold slack
    rw [hmap]
  rw [hlog, hs]
  exact hb r bl

theorem prune_dedup (tw1 : TreeWatcher) (hInv : DedupInv tw1) :
    DedupInv (prune_revmap tw1) := by
  obtain ⟨hnd, hbound⟩ := hInv
  refine ⟨keysNodup_prune tw1 hnd, ?_⟩
  intro r' bl'
  have hs : slack (prune_revmap tw1) r' bl' ≤ slack tw1 r' bl' := by
    unfold slack
    rcases prune_revmap_find tw1 r' hnd with h | h
    · rw [h]
      exact Nat.zero_le _
    · rw [h]
  have hb := hbound r' bl'
  show countRB tw1.trigger_log r' bl' + slack (prune_revmap tw1) r' bl' ≤
    countReg tw1.trigger_log r'
  omega

theorem add_rev_dedup (tw : TreeWatcher) (branch rev comments user : String)
    (tw' : TreeWatcher) (hok : add_rev tw branch rev comments user = .ok tw')
    (hInv : DedupInv tw) : DedupInv tw' := by
  obtain ⟨hnd, hbound⟩ := hInv
  cases hmsg : triggers_from_msg comments with
  | error e =>
    unfold add_rev at hok
    rw [hmsg] at hok
    cases hok
  | ok tmr =>
    cases tmr with
    | bare0 =>
      unfold add_rev at hok
      rw [hmsg] at hok
      cases hok
    | counts q t r =>
      obtain ⟨E, hEtime, hEsb, hadd⟩ := add_rev_ok_shape tw branch rev comments user q t r hmsg
      rw [hadd] at hok
      have hok' := Except.ok.inj hok
      subst hok'
      have hTW1 : DedupInv { tw with
          revmap := tw.revmap.set rev E
          clock := tw.clock + 1
          trigger_log := tw.trigger_log ++ [.registered rev] } := by
        refine ⟨?_, ?_⟩
        · show keysNodup (tw.revmap.set rev E)
          exact keysNodup_set _ _ _ hnd
        · intro r' bl'
          show countRB (tw.trigger_log ++ [.registered rev]) r' bl' +
            slack _ r' bl' ≤ countReg (tw.trigger_log ++ [.registered rev]) r'
          rw [countRB_registered, countReg_registered]
          have hb := hbound r' bl'
          by_cases hr : r' = rev
          · subst hr
            have hs : slack { tw with
                revmap := tw.revmap.set r' E
                clock := tw.clock + 1
                trigger_log := tw.trigger_log ++ [.registered r'] } r' bl' ≤ 1 := by
              unfold slack
              dsimp only
              rw [find?_set_self]
              dsimp only
              rw [hEsb]
              dsimp only
              split <;> omega
            rw [if_pos rfl]
            omega
          · have hs : slack { tw with
                revmap := tw.revmap.set rev E
                clock := tw.clock + 1
                trigger_log := tw.trigger_log ++ [.registered rev] } r' bl' =
                slack tw r' bl' := by
              unfold slack
              dsimp only
              rw [find?_set_ne _ _ _ _ hr]
            rw [hs]
            split <;> omega
      split
      · exact prune_dedup _ hTW1
      · exact hTW1

theorem handle_message_dedup (lookup : Lookup) (jobs : JobsOracle) (tw : TreeWatcher)
    (key branch rev builder : String) (status : Option Int) (comments user : String)
    (hInv : DedupInv tw) :
    DedupInv (handle_message lookup jobs tw key branch rev builder status comments user).1 := by
  have h1 : DedupInv (if ¬ known_rev tw branch rev = true ∧ comments ≠ "" then
      match add_rev tw branch rev comments user with
      | .ok tw' => (tw', (Except.ok () : Except PyErr Unit))
      | .error e => (tw, Except.error e)
    else (tw, Except.ok ())).1 := by
    split
    · split
      · rename_i tw1 hadd
        exact add_rev_dedup _ _ _ _ _ _ hadd hInv
      · exact hInv
    · exact hInv
  cases hq1 : (if ¬ known_rev tw branch rev = true ∧ comments ≠ "" then
      match add_rev tw branch rev comments user with
      | .ok tw' => (tw', (Except.ok () : Except PyErr Unit))
      | .error e => (tw, Except.error e)
    else (tw, Except.ok ())) with
  | mk tw1 res1 =>
    rw [hq1] at h1
    unfold handle_message
    rw [hq1]
    dsimp only at h1 ⊢
    cases res1 with
    | error e => exact h1
    | ok u1 =>
      cases u1
      dsimp only
      have h2 : DedupInv (if pyEndsWith key.data "started".data = true then
          requested_trigger lookup tw1 branch rev builder
        else (tw1, (Except.ok () : Except PyErr Unit))).1 := by
        split
        · exact requested_trigger_dedup _ _ _ _ _ h1
        · exact h1
      cases hq2 : (if pyEndsWith key.data "started".data = true then
          requested_trigger lookup tw1 branch rev builder
        else (tw1, (Except.ok () : Except PyErr Unit))) with
      | mk tw2 res2 =>
        rw [hq2] at h2
        dsimp only at h2 ⊢
        cases res2 with
        | error e => exact h2
        | ok u2 =>
          cases u2
          dsimp only
          have h3 : DedupInv (if status = some 1 ∨ status = some 2 then
              failure_trigger lookup tw2 branch rev builder
            else (tw2, (Except.ok () : Except PyErr Unit))).1 := by
            split
            · exact failure_trigger_dedup _ _ _ _ _ h2
            · exact h2
          cases hq3 : (if status = some 1 ∨ status = some 2 then
              failure_trigger lookup tw2 branch rev builder
            else (tw2, (Except.ok () : Except PyErr Unit))) with
          | mk tw3 res3 =>
            rw [hq3] at h3
            dsimp only at h3 ⊢
            cases res3 with
            | error e => exact h3
            | ok u3 =>
              cases u3
              dsimp only
              split
              · exact dedup_of_same tw3 _ rfl rfl h3
              · exact dedup_of_same tw3 _ rfl rfl h3

theorem run_events_dedup (lookup : Lookup) (jobs : JobsOracle) (evs : List Event) :
    ∀ tw : TreeWatcher, DedupInv tw → DedupInv (run_events lookup jobs tw evs) := by
  induction evs with
  | nil => intro tw h; exact h
  | cons e es ih =>
    intro tw h
    show DedupInv (run_events lookup jobs
      (handle_message lookup jobs tw e.key e.branch e.rev e.builder
        e.status e.comments e.user).1 es)
    exact ih _ (handle_message_dedup lookup jobs tw e.key e.branch e.rev e.builder
      e.status e.comments e.user h)

theorem init_dedup (threshold : Nat) (allow : String → Bool) :
    DedupInv (TreeWatcher.init threshold allow) := by
  refine ⟨by simp [keysNodup, TreeWatcher.init], ?_⟩
  intro r bl
  show countRB [] r bl + slack (TreeWatcher.init threshold allow) r bl ≤ countReg [] r
  have : slack (TreeWatcher.init threshold allow) r bl = 0 := rfl
  rw [this]
  simp [countRB, countReg]

/-! ## The single-target invariant: events all aimed at one (rev, builder) -/

theorem consBound_le_one (tw : TreeWatcher) (r bl : String) (h : consBound tw r bl) :
    countRB tw.trigger_log r bl ≤ 1 := by
  unfold consBound at h
  split at h
  · omega
  · split at h
    · omega
    · split at h <;> omega

theorem known_rev_false_find (tw : TreeWatcher) (b r : String)
    (h : ¬ known_rev tw b r = true) : tw.revmap.find? r = none := by
  unfold known_rev at h
  cases hf : tw.revmap.find? r with
  | none => rfl
  | some e => rw [hf] at h; simp at h

theorem path_step_cons (tw tw' : TreeWatcher) (rev builder : String)
    (entry : RevEntry) (sb sb1 : List String) (e1 : RevEntry)
    (hnd : keysNodup tw.revmap) (hcb : consBound tw rev builder)
    (hfind : tw.revmap.find? rev = some entry)
    (hsb : entry.seen_builders = some sb)
    (hmem : builder ∉ sb)
    (hsb1 : e1.seen_builders = some sb1)
    (hmemsb1 : builder ∈ sb1)
    (hmap : tw'.revmap = tw.revmap.set rev e1)
    (hlog : tw'.trigger_log = tw.trigger_log ∨
      ∃ a, tw'.trigger_log = tw.trigger_log ++ [a] ∧
        a.rev = rev ∧ a.builder = builder ∧ a.isReg = false) :
    keysNodup tw'.revmap ∧ consBound tw' rev builder := by
  have hzero : countRB tw.trigger_log rev builder = 0 := by
    unfold consBound at hcb
    rw [hfind] at hcb
    dsimp only at hcb
    rw [hsb] at hcb
    dsimp only at hcb
    rw [if_neg hmem] at hcb
    exact hcb
  refine ⟨by rw [hmap]; exact keysNodup_set _ _ _ hnd, ?_⟩
  unfold consBound
  rw [hmap, find?_set_self]
  dsimp only
  rw [hsb1]
  dsimp only
  rw [if_pos hmemsb1]
  rcases hlog with h | ⟨a, ha, _, _, _⟩
  · rw [h, hzero]
    omega
  · rw [ha]
    have := countRB_single_le tw.trigger_log rev builder a
    omega

theorem rtc_update_cons (tw' : TreeWatcher) (rev bl : String) (entry2 : RevEntry)
    (v : Int) (hnd' : keysNodup tw'.revmap) (hcb' : consBound tw' rev bl)
    (hfind2 : tw'.revmap.find? rev = some entry2) :
    keysNodup (tw'.revmap.set rev ({ entry2 with rev_trigger_count := some v })) ∧
    consBound { tw' with revmap := tw'.revmap.set rev ({ entry2 with rev_trigger_count := some v }) } rev bl := by
  refine ⟨keysNodup_set _ _ _ hnd', ?_⟩
  unfold consBound at hcb' ⊢
  rw [hfind2] at hcb'
  dsimp only at hcb' ⊢
  rw [find?_set_self]
  dsimp only
  cases hsb2 : entry2.seen_builders with
  | none =>
    rw [hsb2] at hcb'
    exact hcb'
  | some sb2 =>
    rw [hsb2] at hcb'
    exact hcb'

theorem requested_trigger_cons (lookup : Lookup) (tw : TreeWatcher)
    (branch rev builder : String) (hnd : keysNodup tw.revmap)
    (hcb : consBound tw rev builder) :
    keysNodup (requested_trigger lookup tw branch rev builder).1.revmap ∧
    consBound (requested_trigger lookup tw branch rev builder).1 rev builder := by
  unfold requested_trigger
  cases hfind : tw.revmap.find? rev with
  | none => exact ⟨hnd, hcb⟩
  | some entry =>
    dsimp only
    cases hreq : entry.requested_trigger with
    | none => exact ⟨hnd, hcb⟩
    | some ct =>
      obtain ⟨c0, t0⟩ := ct
      dsimp only
      cases hsb : entry.seen_builders with
      | none => exact ⟨hnd, hcb⟩
      | some sb =>
        dsimp only
        by_cases hmem : builder ∈ sb
        · rw [if_pos hmem]
          exact ⟨hnd, hcb⟩
        · rw [if_neg hmem]
          split
          all_goals
            refine path_step_cons tw _ rev builder entry sb (sb ++ [builder])
              ⟨some (c0, t0), entry.fail_retrigger, entry.rev_trigger_count, entry.time_seen, some (sb ++ [builder]), entry.user⟩
              hnd hcb hfind hsb hmem rfl (by simp) ?_ ?_
          all_goals first
            | exact attempt_revmap_of_found _ _ _ _ _ _ _ _ _ (find?_set_self _ _ _)
            | exact (attempt_triggers_effects _ _ _ _ _ _ _ _).2.1

theorem failure_trigger_cons (lookup : Lookup) (tw : TreeWatcher)
    (branch rev builder : String) (hnd : keysNodup tw.revmap)
    (hcb : consBound tw rev builder) :
    keysNodup (failure_trigger lookup tw branch rev builder).1.revmap ∧
    consBound (failure_trigger lookup tw branch rev builder).1 rev builder := by
  unfold failure_trigger
  cases hfind : tw.revmap.find? rev with
  | none => exact ⟨hnd, hcb⟩
  | some entry =>
    dsimp only
    by_cases hfr0 : entry.fail_retrigger = none
    · rw [if_pos hfr0]
      exact ⟨hnd, hcb⟩
    · rw [if_neg hfr0]
      cases hsb : entry.seen_builders with
      | none => exact ⟨hnd, hcb⟩
      | some sb =>
        dsimp only
        by_cases hmem : builder ∈ sb
        · rw [if_pos hmem]
          exact ⟨hnd, hcb⟩
        · rw [if_neg hmem]
          by_cases hhid : builder ∈ tw.hidden_builders
          · rw [if_pos hhid]
            exact ⟨hnd, hcb⟩
          · rw [if_neg hhid]
            cases hfr : entry.fail_retrigger with
            | none => exact absurd hfr hfr0
            | some c =>
              dsimp only
              cases hrtc : entry.rev_trigger_count with
              | none =>
                exact path_step_cons tw _ rev builder entry sb (sb ++ [builder])
                  ⟨entry.requested_trigger, some c, none, entry.time_seen, some (sb ++ [builder]), entry.user⟩
                  hnd hcb hfind hsb hmem rfl (by simp) rfl (Or.inl rfl)
              | some n =>
                dsimp only
                have hstep : keysNodup (attempt_triggers lookup
                    ({ tw with revmap := tw.revmap.set rev ⟨entry.requested_trigger, some c, some n, entry.time_seen, some (sb ++ [builder]), entry.user⟩ })
                    branch rev builder c n 0).1.revmap ∧
                  consBound (attempt_triggers lookup
                    ({ tw with revmap := tw.revmap.set rev ⟨entry.requested_trigger, some c, some n, entry.time_seen, some (sb ++ [builder]), entry.user⟩ })
                    branch rev builder c n 0).1 rev builder := by
                  refine path_step_cons tw _ rev builder entry sb (sb ++ [builder])
                    ⟨entry.requested_trigger, some c, some n, entry.time_seen, some (sb ++ [builder]), entry.user⟩
                    hnd hcb hfind hsb hmem rfl (by simp) ?_ ?_
                  · exact attempt_revmap_of_found _ _ _ _ _ _ _ _ _ (find?_set_self _ _ _)
                  · exact (attempt_triggers_effects _ _ _ _ _ _ _ _).2.1
                obtain ⟨hnd2, hcb2⟩ := hstep
                split
                · exact ⟨hnd2, hcb2⟩
                · exact ⟨hnd2, hcb2⟩
                · rename_i triggered heq2
                  split
                  · split
                    · exact ⟨hnd2, hcb2⟩
                    · rename_i entry2 hfind2
                      split
                      · exact ⟨hnd2, hcb2⟩
                      · rename_i n2 hrtc2
                        exact rtc_update_cons _ rev builder entry2 (n2 + triggered)
                          hnd2 hcb2 hfind2
                  · exact ⟨hnd2, hcb2⟩

theorem add_rev_cons (tw : TreeWatcher) (branch rev bl comments user : String)
    (tw' : TreeWatcher) (hok : add_rev tw branch rev comments user = .ok tw')
    (hnd : keysNodup tw.revmap) (hfresh : tw.revmap.find? rev = none)
    (hcb : consBound tw rev bl) :
    keysNodup tw'.revmap ∧ consBound tw' rev bl := by
  have hzero : countRB tw.trigger_log rev bl = 0 := by
    unfold consBound at hcb
    rw [hfresh] at hcb
    exact hcb
  cases hmsg : triggers_from_msg comments with
  | error e =>
    unfold add_rev at hok
    rw [hmsg] at hok
    cases hok
  | ok tmr =>
    cases tmr with
    | bare0 =>
      unfold add_rev at hok
      rw [hmsg] at hok
      cases hok
    | counts q t r =>
      obtain ⟨E, hEtime, hEsb, hadd⟩ := add_rev_ok_shape tw branch rev comments user q t r hmsg
      rw [hadd] at hok
      have hok' := Except.ok.inj hok
      subst hok'
      have hzero' : countRB (tw.trigger_log ++ [.registered rev]) rev bl = 0 := by
        rw [countRB_registered]
        exact hzero
      have hnd1 : keysNodup (tw.revmap.set rev E) := keysNodup_set _ _ _ hnd
      split
      · refine ⟨keysNodup_prune _ hnd1, ?_⟩
        unfold consBound
        rcases prune_revmap_find { tw with
            revmap := tw.revmap.set rev E
            clock := tw.clock + 1
            trigger_log := tw.trigger_log ++ [.registered rev] } rev hnd1 with h | h
        · rw [h]
          exact hzero'
        · rw [h]
          show (match Revmap.find? (tw.revmap.set rev E) rev with
            | none => countRB (tw.trigger_log ++ [.registered rev]) rev bl = 0
            | some e => match e.seen_builders with
              | none => countRB (tw.trigger_log ++ [.registered rev]) rev bl = 0
              | some sb => if bl ∈ sb then
                  countRB (tw.trigger_log ++ [.registered rev]) rev bl ≤ 1
                else countRB (tw.trigger_log ++ [.registered rev]) rev bl = 0)
          rw [find?_set_self]
          dsimp only
          rw [hEsb]
          dsimp only
          rw [if_neg (List.not_mem_nil bl)]
          exact hzero'
      · refine ⟨hnd1, ?_⟩
        unfold consBound
        dsimp only
        rw [find?_set_self]
        dsimp only
        rw [hEsb]
        dsimp only
        rw [if_neg (List.not_mem_nil bl)]
        exact hzero'

theorem cons_of_same (tw tw' : TreeWatcher) (r bl : String)
    (hmap : tw'.revmap = tw.revmap) (hlog : tw'.trigger_log = tw.trigger_log)
    (hnd : keysNodup tw.revmap) (hcb : consBound tw r bl) :
    keysNodup tw'.revmap ∧ consBound tw' r bl := by
  refine ⟨by rw [hmap]; exact hnd, ?_⟩
  unfold consBound at hcb ⊢
  rw [hmap, hlog]
  exact hcb

theorem handle_message_cons (lookup : Lookup) (jobs : JobsOracle) (tw : TreeWatcher)
    (key branch rev builder : String) (status : Option Int) (comments user : String)
    (hnd : keysNodup tw.revmap) (hcb : consBound tw rev builder) :
    keysNodup (handle_message lookup jobs tw key branch rev builder
      status comments user).1.revmap ∧
    consBound (handle_message lookup jobs tw key branch rev builder
      status comments user).1 rev builder := by
  have h1 : keysNodup (if ¬ known_rev tw branch rev = true ∧ comments ≠ "" then
      match add_rev tw branch rev comments user with
      | .ok tw' => (tw', (Except.ok () : Except PyErr Unit))
      | .error e => (tw, Except.error e)
    else (tw, Except.ok ())).1.revmap ∧ consBound (if ¬ known_rev tw branch rev = true ∧ comments ≠ "" then
      match add_rev tw branch rev comments user with
      | .ok tw' => (tw', (Except.ok () : Except PyErr Unit))
      | .error e => (tw, Except.error e)
    else (tw, Except.ok ())).1 rev builder := by
    split
    · rename_i hguard
      split
      · rename_i tw1 hadd
        exact add_rev_cons tw branch rev builder comments user tw1 hadd hnd
          (known_rev_false_find tw branch rev hguard.1) hcb
      · exact ⟨hnd, hcb⟩
    · exact ⟨hnd, hcb⟩
  cases hq1 : (if ¬ known_rev tw branch rev = true ∧ comments ≠ "" then
      match add_rev tw branch rev comments user with
      | .ok tw' => (tw', (Except.ok () : Except PyErr Unit))
      | .error e => (tw, Except.error e)
    else (tw, Except.ok ())) with
  | mk tw1 res1 =>
    rw [hq1] at h1
    unfold handle_message
    rw [hq1]
    dsimp only at h1 ⊢
    cases res1 with
    | error e => exact h1
    | ok u1 =>
      cases u1
      dsimp only
      obtain ⟨hnd1, hcb1⟩ := h1
      have h2 : keysNodup (if pyEndsWith key.data "started".data = true then
            requested_trigger lookup tw1 branch rev builder
          else (tw1, (Except.ok () : Except PyErr Unit))).1.revmap ∧
          consBound (if pyEndsWith key.data "started".data = true then
            requested_trigger lookup tw1 branch rev builder
          else (tw1, (Except.ok () : Except PyErr Unit))).1 rev builder := by
        split
        · exact requested_trigger_cons _ _ _ _ _ hnd1 hcb1
        · exact ⟨hnd1, hcb1⟩
      cases hq2 : (if pyEndsWith key.data "started".data = true then
          requested_trigger lookup tw1 branch rev builder
        else (tw1, (Except.ok () : Except PyErr Unit))) with
      | mk tw2 res2 =>
        rw [hq2] at h2
        dsimp only at h2 ⊢
        cases res2 with
        | error e => exact h2
        | ok u2 =>
          cases u2
          dsimp only
          obtain ⟨hnd2, hcb2⟩ := h2
          have h3 : keysNodup (if status = some 1 ∨ status = some 2 then
                failure_trigger lookup tw2 branch rev builder
              else (tw2, (Except.ok () : Except PyErr Unit))).1.revmap ∧
              consBound (if status = some 1 ∨ status = some 2 then
                failure_trigger lookup tw2 branch rev builder
              else (tw2, (Except.ok () : Except PyErr Unit))).1 rev builder := by
            split
            · exact failure_trigger_cons _ _ _ _ _ hnd2 hcb2
            · exact ⟨hnd2, hcb2⟩
          cases hq3 : (if status = some 1 ∨ status = some 2 then
              failure_trigger lookup tw2 branch rev builder
            else (tw2, (Except.ok () : Except PyErr Unit))) with
          | mk tw3 res3 =>
            rw [hq3] at h3
            dsimp only at h3 ⊢
            cases res3 with
            | error e => exact h3
            | ok u3 =>
              cases u3
              dsimp only
              obtain ⟨hnd3, hcb3⟩ := h3
              split
              · exact cons_of_same tw3 _ rev builder rfl rfl hnd3 hcb3
              · exact cons_of_same tw3 _ rev builder rfl rfl hnd3 hcb3

theorem run_events_cons (lookup : Lookup) (jobs : JobsOracle) (r bl : String)
    (evs : List Event) (hevs : ∀ e ∈ evs, e.rev = r ∧ e.builder = bl) :
    ∀ tw : TreeWatcher, keysNodup tw.revmap → consBound tw r bl →
      keysNodup (run_events lookup jobs tw evs).revmap ∧
      consBound (run_events lookup jobs tw evs) r bl := by
  induction evs with
  | nil => intro tw hnd hcb; exact ⟨hnd, hcb⟩
  | cons e es ih =>
    intro tw hnd hcb
    obtain ⟨her, heb⟩ := hevs e (List.mem_cons_self e es)
    show keysNodup (run_events lookup jobs (handle_message lookup jobs tw e.key e.branch
        e.rev e.builder e.status e.comments e.user).1 es).revmap ∧
      consBound (run_events lookup jobs (handle_message lookup jobs tw e.key e.branch
        e.rev e.builder e.status e.comments e.user).1 es) r bl
    rw [her, heb]
    obtain ⟨hnd1, hcb1⟩ := handle_message_cons lookup jobs tw e.key e.branch r bl
      e.status e.comments e.user hnd hcb
    exact ih (fun e' he' => hevs e' (List.mem_cons_of_mem _ he')) _ hnd1 hcb1

/-- C1 amended: per (branch, revision, builder) triple, the number of
trigger actions a run issues never exceeds the number of times that
revision was registered (`seen_builders` is reset only by re-registration
after eviction, which the counterexample exploits); and for a run whose
events all target one fixed (revision, builder) pair — e.g. N ≥ 2
consecutive failure events for the same builder — at most one trigger
action is ever issued. -/
theorem c1_amended :
    (∀ (lookup : Lookup) (jobs : JobsOracle) (threshold : Nat) (allow : String → Bool)
        (evs : List Event) (b r bl : String),
        countTriple (run_events lookup jobs (TreeWatcher.init threshold allow)
            evs).trigger_log b r bl ≤
          countReg (run_events lookup jobs (TreeWatcher.init threshold allow)
            evs).trigger_log r) ∧
    (∀ (lookup : Lookup) (jobs : JobsOracle) (threshold : Nat) (allow : String → Bool)
        (r bl : String) (evs : List Event),
        (∀ e ∈ evs, e.rev = r ∧ e.builder = bl) →
        countRB (run_events lookup jobs (TreeWatcher.init threshold allow)
          evs).trigger_log r bl ≤ 1) := by
  constructor
  · intro lookup jobs threshold allow evs b r bl
    obtain ⟨_, hbound⟩ := run_events_dedup lookup jobs evs _ (init_dedup threshold allow)
    have h1 := countTriple_le_countRB
      (run_events lookup jobs (TreeWatcher.init threshold allow) evs).trigger_log b r bl
    have h2 := hbound r bl
    omega
  · intro lookup jobs threshold allow r bl evs hevs
    have hinit_nd : keysNodup (TreeWatcher.init threshold allow).revmap := by
      simp [keysNodup, TreeWatcher.init]
    have hinit_cb : consBound (TreeWatcher.init threshold allow) r bl := by
      unfold consBound
      show (match Revmap.find? [] r with
        | none => countRB [] r bl = 0
        | some e => match e.seen_builders with
          | none => countRB [] r bl = 0
          | some sb => if bl ∈ sb then countRB [] r bl ≤ 1 else countRB [] r bl = 0)
      rw [revFind_nil]
      rfl
    obtain ⟨_, hcb⟩ := run_events_cons lookup jobs r bl evs hevs _ hinit_nd hinit_cb
    exact consBound_le_one _ r bl hcb

/-- Witness for C1 amended: two consecutive failure events for the same
revision and builder (the claim's N = 2 scenario) yield at most one
trigger action. -/
theorem c1_amended_witness :
    countRB (run_events lkpB1 noJobs (TreeWatcher.init 2000 allowAll)
      [failEvent, failEvent]).trigger_log "abcdef123456" "b1" ≤ 1 :=
  c1_amended.2 lkpB1 noJobs 2000 allowAll "abcdef123456" "b1" [failEvent, failEvent]
    (by
      intro e he
      simp only [List.mem_cons, List.not_mem_nil, or_false] at he
      rcases he with h | h <;> (subst h; exact ⟨rfl, rfl⟩))

end TriggerBot
